import Mathlib

/-!
Shallow embedding of the qcow2 read-only decoder (src/qcow2.go), together
with proofs about its header parsing, table resolution and sequential read
state machine.

Modelling conventions:
* The byte source (Go `io.ReadSeeker`) is a `List Nat`; every place the Go
  code consumes a byte value, the model reduces it mod 256 (Go bytes are
  `uint8`).  `Seek(off, io.SeekStart)` followed by `io.ReadFull` of an
  n-byte buffer is `readAt img off n`, which succeeds iff all n bytes are
  available (a zero-length `ReadFull` always succeeds, as in Go).
* Machine integers are `Nat`/`Int`.  Go `int`/`int64` values that can go
  negative (`currentCluster`, `nClusters`, table indices, the L1 offset)
  are `Int`; Go `/` and `%` on them are `Int.tdiv` / `Int.tmod`
  (truncation towards zero, Go semantics).  Reinterpreting a `uint64`
  header field as `int64` is `toInt64`.
* Go runtime panics the reader can actually trigger (negative or
  out-of-range slice index, negative `make` size) are the explicit error
  `QErr.goPanic`.
* Deflate decompression (`compress/flate`, external to this repository) is
  an abstract parameter: an `Inflator` is any function that, reading from
  a byte suffix of the image, either fails or returns exactly the
  requested number of decompressed bytes — the contract
  `io.ReadFull(flateReader, buf)` provides on success.
* After a failed cluster materialisation the Go buffer may hold partial
  data; the reader is documented as unusable after any error, and the
  model leaves the buffer unchanged on those paths.
-/

namespace Qcow2

/-- Reading n bytes at absolute offset off of the image
(Seek + io.ReadFull): some iff all n bytes are available; a zero-length
read always succeeds. -/
def readAt (img : List Nat) (off n : Nat) : Option (List Nat) :=
  if n ≤ img.length - off then some ((img.drop off).take n) else none

/-- Slice bs[off : off+n] of a byte buffer. -/
def field (bs : List Nat) (off n : Nat) : List Nat := (bs.drop off).take n

/-- Big-endian decoding of a byte buffer (binary.BigEndian.Uint32/Uint64);
byte values are normalised mod 256. -/
def beNat (bs : List Nat) : Nat := bs.foldl (fun a b => a * 256 + b % 256) 0

/-- Reinterpret an unsigned 64-bit value as a Go int64 (two's complement). -/
def toInt64 (v : Nat) : Int := if v < 2 ^ 63 then (v : Int) else (v : Int) - 2 ^ 64

/-- Every distinct error outcome of the reader; one constructor per
return-error site in qcow2.go.  `goPanic` models a Go runtime panic
(out-of-range index, negative allocation); `fuelOut` is an artifact of the
fuel-bounded driver loop `readAll`, never produced when enough fuel is
supplied. -/
inductive QErr where
  | ioError
  | eof
  | goPanic
  | fuelOut
  | badMagic
  | unsupportedVersion (v : Nat)
  | backingFile
  | badClusterBits (bits : Nat)
  | encryption
  | dirtyBit
  | corruptBit
  | externalDataFile
  | extendedL2
  | unknownIncompatible (bits : Nat)
  | headerLenMisaligned
  | headerLenTooSmall
  | headerLenTooBig
  | headerTooShortForCompression
  | unsupportedCompression (t : Nat)
  | l1ReadFailed
  deriving DecidableEq

deriving instance DecidableEq for Except

/-- Spec taxonomy (§7): errors the spec classifies as FormatError. -/
def QErr.isFormatErr : QErr → Bool
  | .badMagic | .headerLenMisaligned | .headerLenTooSmall | .headerLenTooBig => true
  | _ => false

/-- Spec taxonomy (§7): errors the spec classifies as UnsupportedFeatureError. -/
def QErr.isUnsupportedFeatureErr : QErr → Bool
  | .backingFile | .badClusterBits _ | .encryption | .dirtyBit | .corruptBit
  | .externalDataFile | .extendedL2 | .unknownIncompatible _ => true
  | _ => false

/-- qcow2Config from qcow2.go.  nClusters is a Go int and can be negative
when the declared virtual size reinterpreted as int64 is negative. -/
structure qcow2Config where
  clusterSize : Nat
  nClusters : Int
  l1Table : List Nat
  l2TableSize : Nat
  l2CompressedEntryHostClusterOffsetMask : Nat
  deriving DecidableEq

/-- L1 entry offset mask, bits 9-55. -/
def l1EntryOffsetMask : Nat := 0xfffffffffffe00

/-- Incompatible-features bit 0: dirty. -/
def incFeatDirtyBit : Nat := 1 <<< 0
/-- Incompatible-features bit 1: corrupt. -/
def incFeatCorruptBit : Nat := 1 <<< 1
/-- Incompatible-features bit 2: external data file. -/
def incFeatExternalDataFileBit : Nat := 1 <<< 2
/-- Incompatible-features bit 3: non-default compression type. -/
def incFeatCompressionTypeBit : Nat := 1 <<< 3
/-- Incompatible-features bit 4: extended L2 entries. -/
def incFeatExtendedL2EntriesBit : Nat := 1 <<< 4
/-- Go ^uint64(0b11111): all 64-bit values except the five known bits. -/
def incFeatUnknownBits : Nat := 2 ^ 64 - 32

/-- The zlib/deflate compression-type constant. -/
def compressionTypeZlib : Nat := 0

/-- parseL1Table from qcow2.go: seek to offset (failing on a negative
position), read size*8 bytes, decode each 8-byte big-endian entry masked
to bits 9-55. -/
def parseL1Table (img : List Nat) (offset : Int) (size : Nat) : Except QErr (List Nat) :=
  if offset < 0 then .error .ioError
  else
    match readAt img offset.toNat (size * 8) with
    | none => .error .ioError
    | some buf =>
        .ok ((List.range size).map fun i => beNat (field buf (i * 8) 8) &&& l1EntryOffsetMask)

/-- The version-3 part of parseHeaderAndL1 (lines 148-211 of qcow2.go):
read the 32-byte v3 header block at offset 72, check the
incompatible-feature bits, validate the header length, read the remaining
header bytes, and check the compression type when bit 3 was set.  Note the
code takes the compression type from v3Header[0:4], the top four bytes of
the incompatible-features field. -/
def parseV3Block (img : List Nat) : Except QErr Unit :=
  match readAt img 72 32 with
  | none => .error .ioError
  | some v3Header =>
    let incompatibleFeatures := beNat (field v3Header 0 8)
    if incompatibleFeatures &&& incFeatDirtyBit ≠ 0 then .error .dirtyBit
    else if incompatibleFeatures &&& incFeatCorruptBit ≠ 0 then .error .corruptBit
    else if incompatibleFeatures &&& incFeatExternalDataFileBit ≠ 0 then .error .externalDataFile
    else
      let hasNonDefaultCompression : Bool := incompatibleFeatures &&& incFeatCompressionTypeBit != 0
      if incompatibleFeatures &&& incFeatExtendedL2EntriesBit ≠ 0 then .error .extendedL2
      else if incompatibleFeatures &&& incFeatUnknownBits ≠ 0 then
        .error (.unknownIncompatible (incompatibleFeatures &&& incFeatUnknownBits))
      else
        let headerLength := beNat (field v3Header 28 4)
        if headerLength % 8 ≠ 0 then .error .headerLenMisaligned
        else if headerLength < 104 then .error .headerLenTooSmall
        else if headerLength > 1000 then .error .headerLenTooBig
        else
          match readAt img 104 (headerLength - 104) with
          | none => .error .ioError
          | some _ =>
            if hasNonDefaultCompression then
              if headerLength < 108 then .error .headerTooShortForCompression
              else if beNat (field v3Header 0 4) ≠ compressionTypeZlib then
                .error (.unsupportedCompression (beNat (field v3Header 0 4)))
              else .ok ()
            else .ok ()

/-- parseHeaderAndL1 from qcow2.go: read the fixed 72-byte header, check
magic, version, backing file, cluster bits, encryption; for version 3 run
the v3 block checks; then read the L1 table and assemble the config. -/
def parseHeaderAndL1 (img : List Nat) : Except QErr qcow2Config :=
  match readAt img 0 72 with
  | none => .error .ioError
  | some header =>
    if (field header 0 4).map (fun b => b % 256) ≠ [81, 70, 73, 251] then .error .badMagic
    else
      let ver := beNat (field header 4 4)
      if ver ≠ 2 ∧ ver ≠ 3 then .error (.unsupportedVersion ver)
      else
        let backingFileNameOffset := beNat (field header 8 8)
        if backingFileNameOffset ≠ 0 then .error .backingFile
        else
          let clusterBits := beNat (field header 20 4)
          if clusterBits < 9 ∨ clusterBits > 21 then .error (.badClusterBits clusterBits)
          else
            let clusterSize := 1 <<< clusterBits
            let virtualDiskSize := beNat (field header 24 8)
            let encryptionMethod := beNat (field header 32 4)
            if encryptionMethod ≠ 0 then .error .encryption
            else
              let l1TableSize := beNat (field header 36 4)
              let l1TableOffset := toInt64 (beNat (field header 40 8))
              match (if ver = 3 then parseV3Block img else .ok ()) with
              | .error e => .error e
              | .ok () =>
                match parseL1Table img l1TableOffset l1TableSize with
                | .error _ => .error .l1ReadFailed
                | .ok l1Table =>
                  .ok { clusterSize := clusterSize
                        nClusters := (toInt64 virtualDiskSize).tdiv (clusterSize : Int)
                        l2TableSize := clusterSize / 8
                        l2CompressedEntryHostClusterOffsetMask := 1 <<< (70 - clusterBits) - 1
                        l1Table := l1Table }

/-- l2Entry from qcow2.go (offsets decoded by the masks are nonnegative,
so the Go int64 offset is a Nat here). -/
structure l2Entry where
  offset : Nat
  compressed : Bool
  allZeroes : Bool
  deriving DecidableEq

/-- L2 entry bit 62: cluster is compressed. -/
def l2EntryCompressedBit : Nat := 1 <<< 62
/-- Non-compressed L2 entry bit 0: cluster reads as all zeroes. -/
def l2EntryNoncompressedAllZeroesBit : Nat := 1 <<< 0
/-- Non-compressed L2 entry offset mask, bits 9-55. -/
def l2EntryNoncompressedOffsetMask : Nat := 0xfffffffffffe00

/-- Decoding of one 8-byte L2 table entry value (the loop body of
parseL2Table in qcow2.go). -/
def decodeL2Entry (compressedMask : Nat) (entry : Nat) : l2Entry :=
  if entry &&& l2EntryCompressedBit ≠ 0 then
    { offset := entry &&& compressedMask, compressed := true, allZeroes := false }
  else if entry &&& l2EntryNoncompressedAllZeroesBit ≠ 0 then
    { offset := 0, compressed := false, allZeroes := true }
  else
    { offset := entry &&& l2EntryNoncompressedOffsetMask, compressed := false, allZeroes := false }

/-- Abstract deflate decompressor standing in for compress/flate: run s n
reads the compressed stream from s (the image suffix the reader seeked to)
and either fails or yields exactly n decompressed bytes, the behaviour of
io.ReadFull(flate.NewReader(...), buf) with an n-byte buffer. -/
structure Inflator where
  run : List Nat → Nat → Option (List Nat)
  run_length : ∀ s n bs, run s n = some bs → bs.length = n

/-- qcow2Reader from qcow2.go, with the embedded qcow2Config flattened. -/
structure qcow2Reader where
  image : List Nat
  clusterSize : Nat
  nClusters : Int
  l1Table : List Nat
  l2TableSize : Nat
  l2CompressedEntryHostClusterOffsetMask : Nat
  currentCluster : Int
  currentL2Table : List l2Entry
  currentData : List Nat
  currentOffset : Nat
  deriving DecidableEq

/-- parseL2Table from qcow2.go.  A zero L1 entry synthesises an all-zeroes
table without touching the image; otherwise the table is read at the L1
entry's offset, the last table possibly shorter
(min(l2TableSize, nClusters-currentCluster) entries).  An out-of-range L1
index or a negative entry count is a Go runtime panic. -/
def parseL2Table (r : qcow2Reader) (l2TableIdx : Int) : qcow2Reader × Option QErr :=
  if l2TableIdx < 0 ∨ (r.l1Table.length : Int) ≤ l2TableIdx then (r, some .goPanic)
  else if r.l1Table.getD l2TableIdx.toNat 0 = 0 then
    ({ r with currentL2Table :=
        List.replicate r.l2TableSize { offset := 0, compressed := false, allZeroes := true } ++
          r.currentL2Table.drop r.l2TableSize }, none)
  else
    let l2Entries : Int := min (r.l2TableSize : Int) (r.nClusters - r.currentCluster)
    if l2Entries < 0 then (r, some .goPanic)
    else
      match readAt r.image (r.l1Table.getD l2TableIdx.toNat 0) (8 * l2Entries.toNat) with
      | none => (r, some .ioError)
      | some buf =>
        let decoded := (List.range l2Entries.toNat).map fun i =>
          decodeL2Entry r.l2CompressedEntryHostClusterOffsetMask (beNat (field buf (i * 8) 8))
        ({ r with currentL2Table := decoded ++ r.currentL2Table.drop l2Entries.toNat }, none)

/-- fillNextCluster from qcow2.go: advance the cluster index, report eof
when it reaches nClusters, reload the L2 table on a table boundary, then
materialise the cluster according to its entry and reset the
intra-cluster offset. -/
def fillNextCluster (inf : Inflator) (r0 : qcow2Reader) : qcow2Reader × Option QErr :=
  let r := { r0 with currentCluster := r0.currentCluster + 1 }
  if r.currentCluster = r.nClusters then (r, some .eof)
  else
    match (if r.currentCluster.tmod (r.l2TableSize : Int) = 0 then
             parseL2Table r (r.currentCluster.tdiv (r.l2TableSize : Int))
           else (r, none)) with
    | (r1, some e) => (r1, some e)
    | (r1, none) =>
      let idxI := r1.currentCluster.tmod (r1.l2TableSize : Int)
      if idxI < 0 ∨ (r1.currentL2Table.length : Int) ≤ idxI then (r1, some .goPanic)
      else
        let entry := r1.currentL2Table.getD idxI.toNat
          { offset := 0, compressed := false, allZeroes := false }
        if entry.allZeroes then
          ({ r1 with
              currentData := List.replicate r1.clusterSize 0 ++ r1.currentData.drop r1.clusterSize,
              currentOffset := 0 }, none)
        else if entry.compressed then
          match inf.run (r1.image.drop entry.offset) r1.currentData.length with
          | none => (r1, some .ioError)
          | some bs => ({ r1 with currentData := bs, currentOffset := 0 }, none)
        else
          match readAt r1.image entry.offset r1.currentData.length with
          | none => (r1, some .ioError)
          | some bs => ({ r1 with currentData := bs, currentOffset := 0 }, none)

/-- Read method of qcow2Reader: refill when the current cluster is
exhausted (propagating failures with the mutated receiver state, as the
Go method mutates through the pointer), then hand out
min(clusterSize-currentOffset, len(p)) bytes of the current cluster.
plen is len(p); the returned list is what the call wrote into p. -/
def qcow2Reader.Read (r : qcow2Reader) (inf : Inflator) (plen : Nat) :
    qcow2Reader × Except QErr (List Nat) :=
  if r.clusterSize ≤ r.currentOffset then
    match fillNextCluster inf r with
    | (r1, some e) => (r1, .error e)
    | (r1, none) =>
      let n := min (r1.clusterSize - r1.currentOffset) plen
      ({ r1 with currentOffset := r1.currentOffset + n },
        .ok ((r1.currentData.drop r1.currentOffset).take n))
  else
    let n := min (r.clusterSize - r.currentOffset) plen
    ({ r with currentOffset := r.currentOffset + n },
      .ok ((r.currentData.drop r.currentOffset).take n))

/-- The reader state NewReader builds from a parsed config: buffers
allocated zero-filled at their Go make() sizes, cursor set to the
before-first-cluster sentinel (currentCluster -1, currentOffset
clusterSize). -/
def initReader (config : qcow2Config) (image : List Nat) : qcow2Reader :=
  { image := image
    clusterSize := config.clusterSize
    nClusters := config.nClusters
    l1Table := config.l1Table
    l2TableSize := config.l2TableSize
    l2CompressedEntryHostClusterOffsetMask := config.l2CompressedEntryHostClusterOffsetMask
    currentCluster := -1
    currentL2Table :=
      List.replicate config.l2TableSize { offset := 0, compressed := false, allZeroes := false }
    currentData := List.replicate config.clusterSize 0
    currentOffset := config.clusterSize }

/-- NewReader from qcow2.go. -/
def NewReader (img : List Nat) : Except QErr qcow2Reader :=
  match parseHeaderAndL1 img with
  | .error e => .error e
  | .ok config => .ok (initReader config img)

/-- Driving a reader to completion the way io.ReadAll does: call Read with
a plen-byte buffer until it fails, treating eof as clean end of data.
fuel bounds the number of calls; with enough fuel `.error .fuelOut` never
occurs. -/
def readAll (inf : Inflator) (plen : Nat) : Nat → qcow2Reader → Except QErr (List Nat)
  | 0, _ => .error .fuelOut
  | fuel + 1, r =>
    match r.Read inf plen with
    | (_, .error .eof) => .ok []
    | (_, .error e) => .error e
    | (r', .ok bs) =>
      match readAll inf plen fuel r' with
      | .error e => .error e
      | .ok rest => .ok (bs ++ rest)

/-! Basic facts about the byte-source primitive. -/

theorem readAt_length {img : List Nat} {off n : Nat} {bs : List Nat}
    (h : readAt img off n = some bs) : bs.length = n := by
  unfold readAt at h
  split at h
  · cases h
    simp only [List.length_take, List.length_drop]
    omega
  · cases h

theorem readAt_isSome_iff {img : List Nat} {off n : Nat} :
    (readAt img off n).isSome ↔ n ≤ img.length - off := by
  unfold readAt
  split <;> simp_all

/-! State-preservation lemmas for the L2 resolver and the cluster filler. -/

theorem parseL2Table_preserves (r : qcow2Reader) (i : Int) :
    (parseL2Table r i).1.currentCluster = r.currentCluster ∧
    (parseL2Table r i).1.currentOffset = r.currentOffset ∧
    (parseL2Table r i).1.currentData = r.currentData ∧
    (parseL2Table r i).1.image = r.image ∧
    (parseL2Table r i).1.clusterSize = r.clusterSize ∧
    (parseL2Table r i).1.nClusters = r.nClusters ∧
    (parseL2Table r i).1.l1Table = r.l1Table ∧
    (parseL2Table r i).1.l2TableSize = r.l2TableSize ∧
    (parseL2Table r i).1.l2CompressedEntryHostClusterOffsetMask =
      r.l2CompressedEntryHostClusterOffsetMask := by
  simp only [parseL2Table]
  repeat' split
  all_goals simp

theorem fillNextCluster_preserves (inf : Inflator) (r : qcow2Reader) :
    (fillNextCluster inf r).1.currentCluster = r.currentCluster + 1 ∧
    (fillNextCluster inf r).1.image = r.image ∧
    (fillNextCluster inf r).1.clusterSize = r.clusterSize ∧
    (fillNextCluster inf r).1.nClusters = r.nClusters ∧
    (fillNextCluster inf r).1.l1Table = r.l1Table ∧
    (fillNextCluster inf r).1.l2TableSize = r.l2TableSize ∧
    (fillNextCluster inf r).1.l2CompressedEntryHostClusterOffsetMask =
      r.l2CompressedEntryHostClusterOffsetMask := by
  simp only [fillNextCluster]
  split
  · simp
  · split
    next r1 e heq =>
      split at heq
      · have hp := parseL2Table_preserves
          { r with currentCluster := r.currentCluster + 1 }
          ((r.currentCluster + 1).tdiv (r.l2TableSize : Int))
        rw [heq] at hp
        simp only at hp
        simp [hp.1, hp.2.2.2.1, hp.2.2.2.2.1, hp.2.2.2.2.2.1, hp.2.2.2.2.2.2.1,
          hp.2.2.2.2.2.2.2.1, hp.2.2.2.2.2.2.2.2]
      · cases heq
    next r1 heq =>
      have hp : r1.currentCluster = r.currentCluster + 1 ∧ r1.image = r.image ∧
          r1.clusterSize = r.clusterSize ∧ r1.nClusters = r.nClusters ∧
          r1.l1Table = r.l1Table ∧ r1.l2TableSize = r.l2TableSize ∧
          r1.l2CompressedEntryHostClusterOffsetMask =
            r.l2CompressedEntryHostClusterOffsetMask := by
        split at heq
        · have hp := parseL2Table_preserves
            { r with currentCluster := r.currentCluster + 1 }
            ((r.currentCluster + 1).tdiv (r.l2TableSize : Int))
          rw [heq] at hp
          simp only at hp
          exact ⟨hp.1, hp.2.2.2.1, hp.2.2.2.2.1, hp.2.2.2.2.2.1, hp.2.2.2.2.2.2.1,
            hp.2.2.2.2.2.2.2.1, hp.2.2.2.2.2.2.2.2⟩
        · cases heq
          simp
      obtain ⟨h1, h2, h3, h4, h5, h6, h7⟩ := hp
      repeat' split
      all_goals simp [h1, h2, h3, h4, h5, h6, h7]

theorem fillNextCluster_ok_post (inf : Inflator) (r r1 : qcow2Reader)
    (h : fillNextCluster inf r = (r1, none)) :
    r1.currentOffset = 0 ∧
    (r.currentData.length = r.clusterSize → r1.currentData.length = r.clusterSize) := by
  simp only [fillNextCluster] at h
  split at h
  · cases h
  · split at h
    next r2 e heq => cases h
    next r2 heq =>
      have hp : r2.currentData = r.currentData ∧ r2.clusterSize = r.clusterSize := by
        split at heq
        · have hp := parseL2Table_preserves
            { r with currentCluster := r.currentCluster + 1 }
            ((r.currentCluster + 1).tdiv (r.l2TableSize : Int))
          rw [heq] at hp
          simp only at hp
          exact ⟨hp.2.2.1, hp.2.2.2.2.1⟩
        · cases heq
          exact ⟨rfl, rfl⟩
      obtain ⟨hd, hc⟩ := hp
      split at h
      · cases h
      · split at h
        · cases h
          refine ⟨rfl, fun hl => ?_⟩
          simp only [List.length_append, List.length_replicate, List.length_drop, hd, hc]
          omega
        · split at h
          · split at h
            next heq2 => cases h
            next bs heq2 =>
              cases h
              refine ⟨rfl, fun hl => ?_⟩
              have := inf.run_length _ _ _ heq2
              simp only [this, hd, hc, hl]
          · split at h
            next heq2 => cases h
            next bs heq2 =>
              cases h
              refine ⟨rfl, fun hl => ?_⟩
              have := readAt_length heq2
              simp only [this, hd, hc, hl]

/-! Concrete objects used by the witnesses: a trivial inflator (decompression
as the identity on the underlying bytes) and small concrete images. -/

/-- A concrete Inflator for witnesses: the decompressed stream equals the
raw bytes at the seek position. -/
def idInflator : Inflator where
  run := fun s n => if n ≤ s.length then some (s.take n) else none
  run_length := by
    intro s n bs h
    dsimp only at h
    split at h
    · cases h
      simp only [List.length_take]
      omega
    · cases h

/-- A 72-byte version-2 header: cluster bits 9 (512-byte clusters),
virtual size 512 (one cluster), L1 table of one entry at offset 72. -/
def zHeader : List Nat :=
  [81, 70, 73, 251] ++ [0, 0, 0, 2] ++ List.replicate 8 0 ++ List.replicate 4 0 ++
    [0, 0, 0, 9] ++ [0, 0, 0, 0, 0, 0, 2, 0] ++ [0, 0, 0, 0] ++ [0, 0, 0, 1] ++
    [0, 0, 0, 0, 0, 0, 0, 72] ++ List.replicate 24 0

/-- An 80-byte image: the header above followed by a single all-zero L1
entry, describing one all-zero 512-byte cluster. -/
def zImg : List Nat := zHeader ++ List.replicate 8 0

/-- The config parseHeaderAndL1 produces for zImg. -/
def zCfg : qcow2Config :=
  { clusterSize := 512, nClusters := 1, l1Table := [0], l2TableSize := 64,
    l2CompressedEntryHostClusterOffsetMask := 2 ^ 61 - 1 }

/-- The reader NewReader produces for zImg. -/
def zReader : qcow2Reader := initReader zCfg zImg

/-- C10: when the intra-cluster offset equals the cluster size — as in the
before-first-cluster state immediately after construction — a Read call
with a zero-length buffer still performs the next-cluster transition: the
cluster index advances (so the state is not left unchanged), and the call
returns either zero bytes after a successful transition or the
transition's error / end-of-stream signal. -/
theorem read_zero_buffer_advances (inf : Inflator) (r : qcow2Reader)
    (h : r.currentOffset = r.clusterSize) :
    (r.Read inf 0).1.currentCluster = r.currentCluster + 1 ∧
    ((r.Read inf 0).2 = .ok [] ∨ ∃ e, (r.Read inf 0).2 = .error e) := by
  have hcond : r.clusterSize ≤ r.currentOffset := h.ge
  have hfc := (fillNextCluster_preserves inf r).1
  simp only [qcow2Reader.Read, if_pos hcond]
  rcases hfc2 : fillNextCluster inf r with ⟨r1, st⟩
  rw [hfc2] at hfc
  simp only at hfc
  cases st with
  | none => simp [hfc]
  | some e => simp [hfc]

/-- Witness for read_zero_buffer_advances at the concrete reader for zImg. -/
theorem read_zero_buffer_advances_witness :
    zReader.currentOffset = zReader.clusterSize ∧
    ((zReader.Read idInflator 0).1.currentCluster = zReader.currentCluster + 1 ∧
      ((zReader.Read idInflator 0).2 = .ok [] ∨
        ∃ e, (zReader.Read idInflator 0).2 = .error e)) :=
  ⟨rfl, read_zero_buffer_advances idInflator zReader rfl⟩

/-- C4: a successful Read call returns bytes of at most one cluster: it
copies exactly min(clusterSize - currentOffset, plen) bytes, taken
contiguously from the single currently materialised cluster buffer
starting at the intra-cluster offset (0 after a needed cluster
transition, the pre-call offset otherwise), advances the offset by
exactly that count, and the advanced offset never passes the cluster
boundary. -/
theorem read_within_one_cluster (inf : Inflator) (r r' : qcow2Reader) (plen : Nat)
    (bs : List Nat) (hdl : r.currentData.length = r.clusterSize)
    (h : r.Read inf plen = (r', .ok bs)) :
    bs.length =
      min (r.clusterSize - (if r.clusterSize ≤ r.currentOffset then 0 else r.currentOffset))
        plen ∧
    bs = (r'.currentData.drop
        (if r.clusterSize ≤ r.currentOffset then 0 else r.currentOffset)).take bs.length ∧
    r'.currentOffset =
      (if r.clusterSize ≤ r.currentOffset then 0 else r.currentOffset) + bs.length ∧
    r'.currentOffset ≤ r.clusterSize := by
  simp only [qcow2Reader.Read] at h
  by_cases htrans : r.clusterSize ≤ r.currentOffset
  · rw [if_pos htrans] at h
    rw [if_pos htrans]
    rcases hfc2 : fillNextCluster inf r with ⟨r1, st⟩
    rw [hfc2] at h
    have hcs := (fillNextCluster_preserves inf r).2.2.1
    rw [hfc2] at hcs
    simp only at hcs
    cases st with
    | some e => simp at h
    | none =>
      obtain ⟨hoff, hlen⟩ := fillNextCluster_ok_post inf r r1 hfc2
      have hlen' := hlen hdl
      dsimp only at h
      injection h with h1 h2
      injection h2 with h2
      subst h1
      subst h2
      simp only [hoff, hcs, Nat.sub_zero, List.drop_zero]
      have hbs : ((r1.currentData.take (min r.clusterSize plen))).length =
          min r.clusterSize plen := by
        simp only [List.length_take, hlen', hcs]
        omega
      refine ⟨hbs, ?_, ?_, ?_⟩
      · rw [hbs]
      · simp [hbs]
      · omega
  · rw [if_neg htrans] at h
    rw [if_neg htrans]
    injection h with h1 h2
    injection h2 with h2
    subst h1
    subst h2
    have hbs : ((r.currentData.drop r.currentOffset).take
        (min (r.clusterSize - r.currentOffset) plen)).length =
        min (r.clusterSize - r.currentOffset) plen := by
      simp only [List.length_take, List.length_drop, hdl]
      omega
    refine ⟨hbs, ?_, ?_, ?_⟩
    · rw [hbs]
    · simp [hbs]
    · simp only
      omega

set_option maxRecDepth 100000 in
/-- Witness for read_within_one_cluster: a 7-byte read from the concrete
reader for zImg, which transitions into the first (all-zero) cluster and
returns 7 zero bytes. -/
theorem read_within_one_cluster_witness :
    zReader.currentData.length = zReader.clusterSize ∧
    (List.replicate 7 0 : List Nat).length =
      min (zReader.clusterSize -
        (if zReader.clusterSize ≤ zReader.currentOffset then 0 else zReader.currentOffset)) 7 ∧
    (List.replicate 7 0 : List Nat) =
      ((zReader.Read idInflator 7).1.currentData.drop
        (if zReader.clusterSize ≤ zReader.currentOffset then 0 else zReader.currentOffset)).take
        (List.replicate 7 0 : List Nat).length ∧
    (zReader.Read idInflator 7).1.currentOffset =
      (if zReader.clusterSize ≤ zReader.currentOffset then 0 else zReader.currentOffset) +
        (List.replicate 7 0 : List Nat).length ∧
    (zReader.Read idInflator 7).1.currentOffset ≤ zReader.clusterSize :=
  ⟨by simp [zReader, initReader, zCfg],
    read_within_one_cluster idInflator zReader (zReader.Read idInflator 7).1 7
      (List.replicate 7 0) (by simp [zReader, initReader, zCfg]) (by rfl)⟩

/-! Shorthand for the raw header fields of an image, as the parser slices
them (the fixed header is the first 72 bytes, the v3 block the 32 bytes
after it). -/

/-- Version field (header[4:8]). -/
def hdrVersion (img : List Nat) : Nat := beNat (field (img.take 72) 4 4)
/-- Backing-file-name-offset field (header[8:16]). -/
def hdrBackingOffset (img : List Nat) : Nat := beNat (field (img.take 72) 8 8)
/-- Cluster-bits field (header[20:24]). -/
def hdrClusterBits (img : List Nat) : Nat := beNat (field (img.take 72) 20 4)
/-- Virtual-disk-size field (header[24:32]). -/
def hdrVirtualSize (img : List Nat) : Nat := beNat (field (img.take 72) 24 8)
/-- Encryption-method field (header[32:36]). -/
def hdrEncryption (img : List Nat) : Nat := beNat (field (img.take 72) 32 4)
/-- Magic check: the first four bytes against 'Q','F','I',0xfb. -/
def hdrMagicOK (img : List Nat) : Prop :=
  (field (img.take 72) 0 4).map (fun b => b % 256) = [81, 70, 73, 251]
instance (img : List Nat) : Decidable (hdrMagicOK img) := by
  unfold hdrMagicOK
  infer_instance

/-- Incompatible-features field of the v3 block (v3Header[0:8]). -/
def hdrIncompatibleFeatures (img : List Nat) : Nat := beNat (field ((img.drop 72).take 32) 0 8)
/-- Header-length field of the v3 block (v3Header[28:32]). -/
def hdrHeaderLength (img : List Nat) : Nat := beNat (field ((img.drop 72).take 32) 28 4)
/-- The four bytes the code reads the compression type from (v3Header[0:4],
the top half of the incompatible-features field). -/
def hdrCompressionTypeField (img : List Nat) : Nat := beNat (field ((img.drop 72).take 32) 0 4)

theorem readAt_of_le {img : List Nat} {off n : Nat} (h : n ≤ img.length - off) :
    readAt img off n = some ((img.drop off).take n) := by
  unfold readAt
  rw [if_pos h]

/-- Inverting a successful header parse: the guards that must have passed
and the config fields as functions of the raw header fields. -/
theorem parseHeaderAndL1_ok_fields {img : List Nat} {cfg : qcow2Config}
    (h : parseHeaderAndL1 img = .ok cfg) :
    72 ≤ img.length ∧ hdrMagicOK img ∧
    (hdrVersion img = 2 ∨ hdrVersion img = 3) ∧
    hdrBackingOffset img = 0 ∧
    9 ≤ hdrClusterBits img ∧ hdrClusterBits img ≤ 21 ∧
    hdrEncryption img = 0 ∧
    cfg.clusterSize = 1 <<< hdrClusterBits img ∧
    cfg.nClusters =
      (toInt64 (hdrVirtualSize img)).tdiv ((1 <<< hdrClusterBits img : Nat) : Int) ∧
    cfg.l2TableSize = (1 <<< hdrClusterBits img) / 8 ∧
    cfg.l2CompressedEntryHostClusterOffsetMask = 1 <<< (70 - hdrClusterBits img) - 1 := by
  unfold parseHeaderAndL1 at h
  split at h
  · cases h
  next header heq =>
    have h72 : 72 ≤ img.length := by
      by_contra hlt
      rw [show readAt img 0 72 = none by unfold readAt; rw [if_neg (by omega)]] at heq
      cases heq
    have hh : header = img.take 72 := by
      rw [readAt_of_le (by omega)] at heq
      injection heq with heq'
      rw [← heq']
      rfl
    subst hh
    simp only [] at h
    split at h
    · cases h
    next hmagic =>
      split at h
      · cases h
      next hver =>
        split at h
        · cases h
        next hback =>
          split at h
          · cases h
          next hcb =>
            split at h
            · cases h
            next henc =>
              split at h
              · cases h
              next u hv3 =>
                split at h
                · cases h
                next l1 hl1 =>
                  cases h
                  simp only [hdrMagicOK, hdrVersion, hdrBackingOffset, hdrClusterBits,
                    hdrEncryption, hdrVirtualSize]
                  refine ⟨h72, not_not.mp hmagic, by omega, not_not.mp hback,
                    by omega, by omega, not_not.mp henc, by trivial, by trivial,
                    by trivial, by trivial⟩

/-! Arithmetic facts about big-endian decoding. -/

theorem beNat_foldl_init (l : List Nat) :
    ∀ a : Nat, l.foldl (fun x b => x * 256 + b % 256) a =
      a * 256 ^ l.length + l.foldl (fun x b => x * 256 + b % 256) 0 := by
  induction l with
  | nil => intro a; simp
  | cons b l ih =>
    intro a
    simp only [List.foldl_cons, List.length_cons]
    rw [ih (a * 256 + b % 256), ih (0 * 256 + b % 256)]
    ring

theorem beNat_append (l1 l2 : List Nat) :
    beNat (l1 ++ l2) = beNat l1 * 256 ^ l2.length + beNat l2 := by
  unfold beNat
  rw [List.foldl_append, beNat_foldl_init l2]

theorem beNat_lt (l : List Nat) : beNat l < 256 ^ l.length := by
  induction l with
  | nil => simp [beNat]
  | cons b l ih =>
    have hb : beNat (b :: l) = b % 256 * 256 ^ l.length + beNat l := by
      unfold beNat
      simp only [List.foldl_cons]
      rw [beNat_foldl_init l]
      ring_nf
    rw [hb]
    have h1 : b % 256 ≤ 255 := by omega
    have h2 : 256 ^ (b :: l).length = 256 * 256 ^ l.length := by
      simp [pow_succ]
      ring
    calc b % 256 * 256 ^ l.length + beNat l
        < b % 256 * 256 ^ l.length + 256 ^ l.length := by omega
      _ ≤ 255 * 256 ^ l.length + 256 ^ l.length := by
          have := Nat.mul_le_mul_right (256 ^ l.length) h1
          omega
      _ = 256 * 256 ^ l.length := by ring
      _ = 256 ^ (b :: l).length := h2.symm

/-- C2: characterisation of L2 entry decoding with the mask coming from a
successfully parsed header: bit 62 set means Compressed with host offset
entry & ((1 <<< (70 - clusterBits)) - 1); otherwise bit 0 set means
AllZero; otherwise Raw with host offset entry & 0xfffffffffffe00
(bits 9-55). -/
theorem decodeL2Entry_spec (img : List Nat) (cfg : qcow2Config) (e : Nat)
    (h : parseHeaderAndL1 img = .ok cfg) :
    decodeL2Entry cfg.l2CompressedEntryHostClusterOffsetMask e =
      if e.testBit 62 then
        { offset := e &&& (1 <<< (70 - hdrClusterBits img) - 1), compressed := true,
          allZeroes := false }
      else if e.testBit 0 then
        { offset := 0, compressed := false, allZeroes := true }
      else
        { offset := e &&& 0xfffffffffffe00, compressed := false, allZeroes := false } := by
  have hmask := (parseHeaderAndL1_ok_fields h).2.2.2.2.2.2.2.2.2.2
  have h62 : (e &&& l2EntryCompressedBit ≠ 0) ↔ e.testBit 62 = true := by
    unfold l2EntryCompressedBit
    rw [Nat.shiftLeft_eq, one_mul, Nat.and_two_pow]
    cases e.testBit 62 <;> simp
  have h0 : (e &&& l2EntryNoncompressedAllZeroesBit ≠ 0) ↔ e.testBit 0 = true := by
    unfold l2EntryNoncompressedAllZeroesBit
    rw [Nat.shiftLeft_eq, one_mul, Nat.and_two_pow]
    cases e.testBit 0 <;> simp
  unfold decodeL2Entry
  rw [hmask]
  by_cases hb62 : e.testBit 62 = true
  · rw [if_pos (h62.mpr hb62), if_pos hb62]
  · rw [if_neg (fun hc => hb62 (h62.mp hc)), if_neg hb62]
    by_cases hb0 : e.testBit 0 = true
    · rw [if_pos (h0.mpr hb0), if_pos hb0]
    · rw [if_neg (fun hc => hb0 (h0.mp hc)), if_neg hb0,
        show l2EntryNoncompressedOffsetMask = 0xfffffffffffe00 from rfl]

set_option maxRecDepth 1000000 in
/-- Witness for decodeL2Entry_spec: the concrete image zImg and the entry
value 2^62 + 1536 (a compressed cluster at host offset 1536). -/
theorem decodeL2Entry_spec_witness :
    parseHeaderAndL1 zImg = .ok zCfg ∧
    decodeL2Entry zCfg.l2CompressedEntryHostClusterOffsetMask (2 ^ 62 + 1536) =
      (if (2 ^ 62 + 1536 : Nat).testBit 62 then
        { offset := (2 ^ 62 + 1536) &&& (1 <<< (70 - hdrClusterBits zImg) - 1),
          compressed := true, allZeroes := false }
      else if (2 ^ 62 + 1536 : Nat).testBit 0 then
        { offset := 0, compressed := false, allZeroes := true }
      else
        { offset := (2 ^ 62 + 1536) &&& 0xfffffffffffe00, compressed := false,
          allZeroes := false }) :=
  ⟨by decide, decodeL2Entry_spec zImg zCfg (2 ^ 62 + 1536) (by decide)⟩

/-! C3: the end-of-stream boundary.  The first read after the last valid
byte reports eof, but eof is not terminal in the code: the cluster index
keeps incrementing past nClusters, so the very next read hands out stale
cluster data again instead of eof. -/

/-- First read on the zImg reader: the single all-zero 512-byte cluster. -/
def zRead1 : qcow2Reader × Except QErr (List Nat) := zReader.Read idInflator 512
/-- Second read: the end-of-stream signal. -/
def zRead2 : qcow2Reader × Except QErr (List Nat) := zRead1.1.Read idInflator 512
/-- Third read, after eof was already reported. -/
def zRead3 : qcow2Reader × Except QErr (List Nat) := zRead2.1.Read idInflator 512

set_option maxRecDepth 1000000 in
/-- C3 (code bug): on the one-cluster image zImg, reading delivers the 512
data bytes, then eof exactly at the boundary — but the read after that
eof returns 512 bytes again (the stale synthesized all-zero entry is
re-materialised after currentCluster is incremented past nClusters)
instead of reporting end-of-stream again, so eof is not a terminal
state. -/
theorem post_eof_read_returns_data :
    NewReader zImg = .ok zReader ∧
    zRead1.2 = .ok (List.replicate 512 0) ∧
    zRead2.2 = .error .eof ∧
    zRead2.1.currentCluster = zReader.nClusters ∧
    zRead3.2 = .ok (List.replicate 512 0) ∧
    zRead3.1.currentCluster = zReader.nClusters + 1 :=
  ⟨by decide, by decide, by decide, by decide, by decide, by decide⟩

/-! C9: the cluster count.  The code computes int(virtualDiskSize) /
clusterSize with a signed truncating division, which differs from plain
virtualDiskSize / clusterSize once the 8-byte virtual size reinterpreted
as int64 is negative. -/

/-- A 72-byte version-2 header that declares a virtual size of 2^63 bytes
(cluster bits 9, empty L1 table): accepted by the parser. -/
def c9Img : List Nat :=
  [81, 70, 73, 251] ++ [0, 0, 0, 2] ++ List.replicate 8 0 ++ List.replicate 4 0 ++
    [0, 0, 0, 9] ++ [128, 0, 0, 0, 0, 0, 0, 0] ++ [0, 0, 0, 0] ++ [0, 0, 0, 0] ++
    [0, 0, 0, 0, 0, 0, 0, 72] ++ List.replicate 24 0

/-- The config the parser produces for c9Img: a negative cluster count. -/
def c9Cfg : qcow2Config :=
  { clusterSize := 512, nClusters := -(2 ^ 54), l1Table := [], l2TableSize := 64,
    l2CompressedEntryHostClusterOffsetMask := 2 ^ 61 - 1 }

/-- A 72-byte version-2 header declaring virtual size 1000 (not a multiple
of the 512-byte cluster size), empty L1 table. -/
def c9bImg : List Nat :=
  [81, 70, 73, 251] ++ [0, 0, 0, 2] ++ List.replicate 8 0 ++ List.replicate 4 0 ++
    [0, 0, 0, 9] ++ [0, 0, 0, 0, 0, 0, 3, 232] ++ [0, 0, 0, 0] ++ [0, 0, 0, 0] ++
    [0, 0, 0, 0, 0, 0, 0, 72] ++ List.replicate 24 0

/-- The config the parser produces for c9bImg: one cluster. -/
def c9bCfg : qcow2Config :=
  { clusterSize := 512, nClusters := 1, l1Table := [], l2TableSize := 64,
    l2CompressedEntryHostClusterOffsetMask := 2 ^ 61 - 1 }

/-- Counterexample to C9 as stated: c9Img is an accepted header whose
total cluster count is not the virtual disk size divided by the cluster
size (that quotient is 2^54; the code stores -(2^54) because the size is
first reinterpreted as a negative int64). -/
theorem nClusters_div_counterexample :
    parseHeaderAndL1 c9Img = .ok c9Cfg ∧
    hdrVirtualSize c9Img = 2 ^ 63 ∧
    c9Cfg.nClusters ≠ ((hdrVirtualSize c9Img / c9Cfg.clusterSize : Nat) : Int) :=
  ⟨by decide, by decide, by decide⟩

/-- C9 amended: for every accepted header the stored cluster count is the
virtual size reinterpreted as int64, divided by the cluster size with
Go's truncating division; for any virtual size below 2^63 this equals
virtualDiskSize / clusterSize with the remainder discarded, and a size
that is not a multiple of the cluster size is accepted, not an error. -/
theorem nClusters_div (img : List Nat) (cfg : qcow2Config)
    (h : parseHeaderAndL1 img = .ok cfg) :
    cfg.nClusters =
      (toInt64 (hdrVirtualSize img)).tdiv ((1 <<< hdrClusterBits img : Nat) : Int) ∧
    (hdrVirtualSize img < 2 ^ 63 →
      cfg.nClusters = ((hdrVirtualSize img / cfg.clusterSize : Nat) : Int)) := by
  obtain ⟨-, -, -, -, -, -, -, hcs, hn, -, -⟩ := parseHeaderAndL1_ok_fields h
  refine ⟨hn, fun hv => ?_⟩
  rw [hn, hcs]
  unfold toInt64
  rw [if_pos hv]
  rw [Int.tdiv_eq_ediv (by positivity) (by positivity)]
  exact_mod_cast rfl

set_option maxRecDepth 1000000 in
/-- Witness for nClusters_div: a header declaring virtual size 1000 with
512-byte clusters is accepted and yields exactly one cluster (the final
partial 488 bytes are silently truncated). -/
theorem nClusters_div_witness :
    parseHeaderAndL1 c9bImg = .ok c9bCfg ∧
    (c9bCfg.nClusters =
        (toInt64 (hdrVirtualSize c9bImg)).tdiv ((1 <<< hdrClusterBits c9bImg : Nat) : Int) ∧
      (hdrVirtualSize c9bImg < 2 ^ 63 →
        c9bCfg.nClusters = ((hdrVirtualSize c9bImg / c9bCfg.clusterSize : Nat) : Int))) :=
  ⟨by decide, nClusters_div c9bImg c9bCfg (by decide)⟩

/-! C7: construction-time rejection. -/

theorem parseHeaderAndL1_v3_error {img : List Nat} {e : QErr}
    (h72 : 72 ≤ img.length) (hm : hdrMagicOK img) (hv : hdrVersion img = 3)
    (hb : hdrBackingOffset img = 0) (hcb9 : 9 ≤ hdrClusterBits img)
    (hcb21 : hdrClusterBits img ≤ 21) (he : hdrEncryption img = 0)
    (hv3 : parseV3Block img = .error e) :
    parseHeaderAndL1 img = .error e := by
  unfold hdrMagicOK at hm
  unfold hdrVersion at hv
  unfold hdrBackingOffset at hb
  unfold hdrClusterBits at hcb9 hcb21
  unfold hdrEncryption at he
  unfold parseHeaderAndL1
  rw [readAt_of_le (show (72 : Nat) ≤ img.length - 0 by omega)]
  dsimp only
  rw [List.drop_zero]
  rw [if_neg (not_not.mpr hm)]
  rw [if_neg (show ¬(beNat (field (img.take 72) 4 4) ≠ 2 ∧
    beNat (field (img.take 72) 4 4) ≠ 3) by omega)]
  rw [if_neg (not_not.mpr hb)]
  rw [if_neg (show ¬(beNat (field (img.take 72) 20 4) < 9 ∨
    beNat (field (img.take 72) 20 4) > 21) by omega)]
  rw [if_neg (not_not.mpr he)]
  rw [if_pos hv, hv3]

/-- C7: for every input whose first four bytes are not the magic constant,
construction fails with the FormatError badMagic — whatever the rest of
the bytes hold, so before any table is read; and for every version-3
image passing the earlier fixed-header checks, each unsupported
incompatible-feature bit produces its distinguishing
UnsupportedFeatureError (in the code's checking order), again for every
image with those first 104 bytes, so before the L1 table is read. -/
theorem reject_bad_magic_and_features (img : List Nat) :
    (72 ≤ img.length → ¬hdrMagicOK img →
      parseHeaderAndL1 img = .error .badMagic ∧ QErr.badMagic.isFormatErr = true) ∧
    (104 ≤ img.length → hdrMagicOK img → hdrVersion img = 3 → hdrBackingOffset img = 0 →
      9 ≤ hdrClusterBits img → hdrClusterBits img ≤ 21 → hdrEncryption img = 0 →
      (hdrIncompatibleFeatures img &&& incFeatDirtyBit ≠ 0 →
        parseHeaderAndL1 img = .error .dirtyBit ∧
          QErr.dirtyBit.isUnsupportedFeatureErr = true) ∧
      (hdrIncompatibleFeatures img &&& incFeatDirtyBit = 0 →
        hdrIncompatibleFeatures img &&& incFeatCorruptBit ≠ 0 →
        parseHeaderAndL1 img = .error .corruptBit ∧
          QErr.corruptBit.isUnsupportedFeatureErr = true) ∧
      (hdrIncompatibleFeatures img &&& incFeatDirtyBit = 0 →
        hdrIncompatibleFeatures img &&& incFeatCorruptBit = 0 →
        hdrIncompatibleFeatures img &&& incFeatExternalDataFileBit ≠ 0 →
        parseHeaderAndL1 img = .error .externalDataFile ∧
          QErr.externalDataFile.isUnsupportedFeatureErr = true) ∧
      (hdrIncompatibleFeatures img &&& incFeatDirtyBit = 0 →
        hdrIncompatibleFeatures img &&& incFeatCorruptBit = 0 →
        hdrIncompatibleFeatures img &&& incFeatExternalDataFileBit = 0 →
        hdrIncompatibleFeatures img &&& incFeatExtendedL2EntriesBit ≠ 0 →
        parseHeaderAndL1 img = .error .extendedL2 ∧
          QErr.extendedL2.isUnsupportedFeatureErr = true) ∧
      (hdrIncompatibleFeatures img &&& incFeatDirtyBit = 0 →
        hdrIncompatibleFeatures img &&& incFeatCorruptBit = 0 →
        hdrIncompatibleFeatures img &&& incFeatExternalDataFileBit = 0 →
        hdrIncompatibleFeatures img &&& incFeatExtendedL2EntriesBit = 0 →
        hdrIncompatibleFeatures img &&& incFeatUnknownBits ≠ 0 →
        parseHeaderAndL1 img =
            .error (.unknownIncompatible (hdrIncompatibleFeatures img &&& incFeatUnknownBits)) ∧
          (QErr.unknownIncompatible
            (hdrIncompatibleFeatures img &&& incFeatUnknownBits)).isUnsupportedFeatureErr =
            true)) := by
  constructor
  · intro h72 hm
    refine ⟨?_, rfl⟩
    unfold hdrMagicOK at hm
    unfold parseHeaderAndL1
    rw [readAt_of_le (show (72 : Nat) ≤ img.length - 0 by omega)]
    dsimp only
    rw [List.drop_zero]
    rw [if_pos hm]
  · intro h104 hm hv hb hcb9 hcb21 he
    have hpre : ∀ e, parseV3Block img = .error e → parseHeaderAndL1 img = .error e :=
      fun e hv3 => parseHeaderAndL1_v3_error (by omega) hm hv hb hcb9 hcb21 he hv3
    unfold hdrIncompatibleFeatures
    have hrd : readAt img 72 32 = some ((img.drop 72).take 32) :=
      readAt_of_le (by omega)
    refine ⟨?_, ?_, ?_, ?_, ?_⟩
    · intro h1
      refine ⟨hpre _ ?_, rfl⟩
      unfold parseV3Block
      rw [hrd]
      dsimp only
      rw [if_pos h1]
    · intro h1 h2
      refine ⟨hpre _ ?_, rfl⟩
      unfold parseV3Block
      rw [hrd]
      dsimp only
      rw [if_neg (not_not.mpr h1), if_pos h2]
    · intro h1 h2 h3
      refine ⟨hpre _ ?_, rfl⟩
      unfold parseV3Block
      rw [hrd]
      dsimp only
      rw [if_neg (not_not.mpr h1), if_neg (not_not.mpr h2), if_pos h3]
    · intro h1 h2 h3 h4
      refine ⟨hpre _ ?_, rfl⟩
      unfold parseV3Block
      rw [hrd]
      dsimp only
      rw [if_neg (not_not.mpr h1), if_neg (not_not.mpr h2), if_neg (not_not.mpr h3),
        if_pos h4]
    · intro h1 h2 h3 h4 h5
      refine ⟨hpre _ ?_, rfl⟩
      unfold parseV3Block
      rw [hrd]
      dsimp only
      rw [if_neg (not_not.mpr h1), if_neg (not_not.mpr h2), if_neg (not_not.mpr h3),
        if_neg (not_not.mpr h4), if_pos h5]

/-! Witness inputs for C7. -/

/-- 72 zero bytes: wrong magic. -/
def c7BadMagicImg : List Nat := List.replicate 72 0

/-- A 104-byte version-3 image with the dirty incompatible-feature bit set. -/
def c7DirtyImg : List Nat :=
  [81, 70, 73, 251] ++ [0, 0, 0, 3] ++ List.replicate 8 0 ++ List.replicate 4 0 ++
    [0, 0, 0, 9] ++ [0, 0, 0, 0, 0, 0, 2, 0] ++ [0, 0, 0, 0] ++ [0, 0, 0, 0] ++
    [0, 0, 0, 0, 0, 0, 0, 72] ++ List.replicate 24 0 ++
    ([0, 0, 0, 0, 0, 0, 0, 1] ++ List.replicate 8 0 ++ List.replicate 8 0 ++ [0, 0, 0, 0] ++
      [0, 0, 0, 104])

set_option maxRecDepth 1000000 in
/-- Witness for reject_bad_magic_and_features: an all-zero 72-byte file is
rejected with badMagic, and a v3 image with the dirty bit set is rejected
with dirtyBit. -/
theorem reject_bad_magic_and_features_witness :
    parseHeaderAndL1 c7BadMagicImg = .error .badMagic ∧
    parseHeaderAndL1 c7DirtyImg = .error .dirtyBit :=
  ⟨((reject_bad_magic_and_features c7BadMagicImg).1 (by decide) (by decide)).1,
    (((reject_bad_magic_and_features c7DirtyImg).2 (by decide) (by decide) (by decide)
      (by decide) (by decide) (by decide) (by decide)).1 (by decide)).1⟩

/-! C8: the v3 header-length and compression-type checks. -/

theorem parseHeaderAndL1_ok_v3Block {img : List Nat} {cfg : qcow2Config}
    (h : parseHeaderAndL1 img = .ok cfg) (hv : hdrVersion img = 3) :
    parseV3Block img = .ok () := by
  unfold hdrVersion at hv
  unfold parseHeaderAndL1 at h
  split at h
  · cases h
  next header heq =>
    have hh : header = img.take 72 := by
      unfold readAt at heq
      split at heq
      · injection heq with heq'
        rw [← heq']
        rfl
      · cases heq
    subst hh
    simp only [] at h
    split at h
    · cases h
    split at h
    · cases h
    split at h
    · cases h
    split at h
    · cases h
    split at h
    · cases h
    split at h
    · cases h
    next hv3 => exact hv3

theorem parseV3Block_ok_facts {img : List Nat} (h : parseV3Block img = .ok ()) :
    hdrHeaderLength img % 8 = 0 ∧ 104 ≤ hdrHeaderLength img ∧ hdrHeaderLength img ≤ 1000 ∧
    (hdrIncompatibleFeatures img &&& incFeatCompressionTypeBit ≠ 0 →
      108 ≤ hdrHeaderLength img ∧ hdrCompressionTypeField img = 0) := by
  unfold parseV3Block at h
  split at h
  · cases h
  next v3Header heq =>
    have hh : v3Header = (img.drop 72).take 32 := by
      unfold readAt at heq
      split at heq
      · injection heq with heq'
        rw [← heq']
      · cases heq
    subst hh
    unfold hdrHeaderLength hdrIncompatibleFeatures hdrCompressionTypeField
    dsimp only at h
    set F := beNat (field ((img.drop 72).take 32) 0 8) with hF
    set HL := beNat (field ((img.drop 72).take 32) 28 4) with hHL
    set CT := beNat (field ((img.drop 72).take 32) 0 4) with hCT
    by_cases h1 : F &&& incFeatDirtyBit ≠ 0
    · rw [if_pos h1] at h
      cases h
    rw [if_neg h1] at h
    by_cases h2 : F &&& incFeatCorruptBit ≠ 0
    · rw [if_pos h2] at h
      cases h
    rw [if_neg h2] at h
    by_cases h3 : F &&& incFeatExternalDataFileBit ≠ 0
    · rw [if_pos h3] at h
      cases h
    rw [if_neg h3] at h
    by_cases h4 : F &&& incFeatExtendedL2EntriesBit ≠ 0
    · rw [if_pos h4] at h
      cases h
    rw [if_neg h4] at h
    by_cases h5 : F &&& incFeatUnknownBits ≠ 0
    · rw [if_pos h5] at h
      cases h
    rw [if_neg h5] at h
    by_cases h6 : HL % 8 ≠ 0
    · rw [if_pos h6] at h
      cases h
    rw [if_neg h6] at h
    by_cases h7 : HL < 104
    · rw [if_pos h7] at h
      cases h
    rw [if_neg h7] at h
    by_cases h8 : HL > 1000
    · rw [if_pos h8] at h
      cases h
    rw [if_neg h8] at h
    rcases hrd : readAt img 104 (HL - 104) with _ | buf
    · rw [hrd] at h
      simp at h
    rw [hrd] at h
    dsimp only at h
    by_cases hb : (F &&& incFeatCompressionTypeBit != 0) = true
    · rw [if_pos hb] at h
      by_cases h11 : HL < 108
      · rw [if_pos h11] at h
        cases h
      rw [if_neg h11] at h
      by_cases h12 : CT ≠ compressionTypeZlib
      · rw [if_pos h12] at h
        cases h
      refine ⟨by omega, by omega, by omega, fun _ => ⟨by omega, ?_⟩⟩
      have h0 := not_not.mp h12
      simpa [compressionTypeZlib] using h0
    · rw [if_neg hb] at h
      refine ⟨by omega, by omega, by omega, fun hbit => absurd ?_ hb⟩
      exact bne_iff_ne.mpr hbit

theorem compField_eq_zero_of_unknown_clear {img : List Nat}
    (hlen : 104 ≤ img.length)
    (hunk : hdrIncompatibleFeatures img &&& incFeatUnknownBits = 0) :
    hdrCompressionTypeField img = 0 := by
  have hlen32 : ((img.drop 72).take 32).length = 32 := by
    simp only [List.length_take, List.length_drop]
    omega
  have hf8 : field ((img.drop 72).take 32) 0 8 = ((img.drop 72).take 32).take 8 := by
    unfold field
    rw [List.drop_zero]
  have hf4 : field ((img.drop 72).take 32) 0 4 = ((img.drop 72).take 32).take 4 := by
    unfold field
    rw [List.drop_zero]
  have hsplit : ((img.drop 72).take 32).take 8 =
      ((img.drop 72).take 32).take 4 ++ (((img.drop 72).take 32).drop 4).take 4 := by
    have := List.take_add ((img.drop 72).take 32) 4 4
    simpa using this
  have hlow4 : ((((img.drop 72).take 32).drop 4).take 4).length = 4 := by
    simp only [List.length_take, List.length_drop, hlen32]
    omega
  have hfeat : hdrIncompatibleFeatures img =
      hdrCompressionTypeField img * 256 ^ 4 +
        beNat ((((img.drop 72).take 32).drop 4).take 4) := by
    show beNat (field ((img.drop 72).take 32) 0 8) =
      beNat (field ((img.drop 72).take 32) 0 4) * 256 ^ 4 +
        beNat ((((img.drop 72).take 32).drop 4).take 4)
    rw [hf8, hf4, hsplit, beNat_append, hlow4]
  have hlow : beNat ((((img.drop 72).take 32).drop 4).take 4) < 256 ^ 4 := by
    have := beNat_lt ((((img.drop 72).take 32).drop 4).take 4)
    rw [hlow4] at this
    exact this
  have hfb : hdrIncompatibleFeatures img < 2 ^ 64 := by
    have h1 := beNat_lt (field ((img.drop 72).take 32) 0 8)
    have h2 : (field ((img.drop 72).take 32) 0 8).length = 8 := by
      unfold field
      simp only [List.length_take, List.length_drop, hlen32]
      omega
    rw [h2] at h1
    have h3 : (256 : Nat) ^ 8 = 2 ^ 64 := by norm_num
    rw [h3] at h1
    exact h1
  have hsmall : hdrIncompatibleFeatures img < 32 := by
    have hx : hdrIncompatibleFeatures img =
        hdrIncompatibleFeatures img &&& (2 ^ 64 - 1) := by
      rw [Nat.and_pow_two_sub_one_eq_mod]
      omega
    have hor : (2 ^ 64 - 1 : Nat) = (2 ^ 64 - 32) ||| 31 := by decide
    have hdistrib : hdrIncompatibleFeatures img &&& ((2 ^ 64 - 32) ||| 31) =
        (hdrIncompatibleFeatures img &&& (2 ^ 64 - 32)) |||
          (hdrIncompatibleFeatures img &&& 31) := Nat.and_or_distrib_left _ _ _
    have hmask : hdrIncompatibleFeatures img &&& (2 ^ 64 - 32) = 0 := by
      have heq : incFeatUnknownBits = 2 ^ 64 - 32 := rfl
      rw [← heq]
      exact hunk
    have hand : hdrIncompatibleFeatures img = hdrIncompatibleFeatures img &&& 31 := by
      conv_lhs => rw [hx, hor, hdistrib, hmask]
      simp
    have hle : hdrIncompatibleFeatures img &&& 31 ≤ 31 := Nat.and_le_right
    omega
  have h2564 : (256 : Nat) ^ 4 = 4294967296 := by norm_num
  rw [h2564] at hfeat hlow
  omega

/-- A 108-byte version-3 image with incompatible features 2^40 + 8: the
non-default-compression bit is set, header length is 108 and the field
the code reads the compression type from holds 256. -/
def c8Img : List Nat :=
  [81, 70, 73, 251] ++ [0, 0, 0, 3] ++ List.replicate 8 0 ++ List.replicate 4 0 ++
    [0, 0, 0, 9] ++ [0, 0, 0, 0, 0, 0, 2, 0] ++ [0, 0, 0, 0] ++ [0, 0, 0, 0] ++
    [0, 0, 0, 0, 0, 0, 0, 72] ++ List.replicate 24 0 ++
    ([0, 0, 1, 0, 0, 0, 0, 8] ++ List.replicate 8 0 ++ List.replicate 8 0 ++ [0, 0, 0, 0] ++
      [0, 0, 0, 108]) ++ List.replicate 4 0

set_option maxRecDepth 1000000 in
/-- Counterexample to C8 as stated: c8Img is a version-3 image with the
non-default-compression bit set, header length 108 and a nonzero
compression-type field (256), yet construction fails with the
UnsupportedFeatureError for the unknown incompatible bit 2^40 — not with
UnsupportedCompressionError, whose branch is unreachable. -/
theorem compression_error_kind_counterexample :
    hdrVersion c8Img = 3 ∧
    hdrIncompatibleFeatures c8Img &&& incFeatCompressionTypeBit ≠ 0 ∧
    hdrHeaderLength c8Img = 108 ∧
    hdrCompressionTypeField c8Img = 256 ∧
    parseHeaderAndL1 c8Img = .error (.unknownIncompatible (2 ^ 40)) ∧
    parseHeaderAndL1 c8Img ≠ .error (.unsupportedCompression 256) :=
  ⟨by decide, by decide, by decide, by decide, by decide, by decide⟩

/-- C8 amended: a version-3 image is accepted only if its header length is
a multiple of 8, at least 104 and at most 1000, and — when the
non-default-compression bit is set — only if the header length is at
least 108 and the compression-type field (v3Header[0:4]) is the zlib
constant 0.  Conversely, under the fixed-header checks and clear feature
bits, each length violation yields its distinguishing FormatError, and a
too-short header with the compression bit yields its own error.  A
nonzero compression-type field never produces
UnsupportedCompressionError, because any image with such a field has
unknown incompatible bits and is rejected earlier: under the
unknown-bits check the field is provably 0. -/
theorem v3_header_length_checks (img : List Nat) (cfg : qcow2Config) :
    (parseHeaderAndL1 img = .ok cfg → hdrVersion img = 3 →
      hdrHeaderLength img % 8 = 0 ∧ 104 ≤ hdrHeaderLength img ∧ hdrHeaderLength img ≤ 1000 ∧
      (hdrIncompatibleFeatures img &&& incFeatCompressionTypeBit ≠ 0 →
        108 ≤ hdrHeaderLength img ∧ hdrCompressionTypeField img = 0)) ∧
    (104 ≤ img.length → hdrMagicOK img → hdrVersion img = 3 → hdrBackingOffset img = 0 →
      9 ≤ hdrClusterBits img → hdrClusterBits img ≤ 21 → hdrEncryption img = 0 →
      hdrIncompatibleFeatures img &&& incFeatDirtyBit = 0 →
      hdrIncompatibleFeatures img &&& incFeatCorruptBit = 0 →
      hdrIncompatibleFeatures img &&& incFeatExternalDataFileBit = 0 →
      hdrIncompatibleFeatures img &&& incFeatExtendedL2EntriesBit = 0 →
      hdrIncompatibleFeatures img &&& incFeatUnknownBits = 0 →
      ((hdrHeaderLength img % 8 ≠ 0 →
          parseHeaderAndL1 img = .error .headerLenMisaligned ∧
            QErr.headerLenMisaligned.isFormatErr = true) ∧
        (hdrHeaderLength img % 8 = 0 → hdrHeaderLength img < 104 →
          parseHeaderAndL1 img = .error .headerLenTooSmall ∧
            QErr.headerLenTooSmall.isFormatErr = true) ∧
        (hdrHeaderLength img % 8 = 0 → 104 ≤ hdrHeaderLength img →
          1000 < hdrHeaderLength img →
          parseHeaderAndL1 img = .error .headerLenTooBig ∧
            QErr.headerLenTooBig.isFormatErr = true) ∧
        (hdrHeaderLength img % 8 = 0 → 104 ≤ hdrHeaderLength img →
          hdrHeaderLength img ≤ 1000 →
          hdrHeaderLength img - 104 ≤ img.length - 104 →
          hdrIncompatibleFeatures img &&& incFeatCompressionTypeBit ≠ 0 →
          hdrHeaderLength img < 108 →
          parseHeaderAndL1 img = .error .headerTooShortForCompression) ∧
        (hdrIncompatibleFeatures img &&& incFeatCompressionTypeBit ≠ 0 →
          hdrCompressionTypeField img = 0))) := by
  constructor
  · intro h hv
    exact parseV3Block_ok_facts (parseHeaderAndL1_ok_v3Block h hv)
  · intro h104 hm hv hb hcb9 hcb21 he h1 h2 h3 h4 h5
    have hpre : ∀ e, parseV3Block img = .error e → parseHeaderAndL1 img = .error e :=
      fun e hv3 => parseHeaderAndL1_v3_error (by omega) hm hv hb hcb9 hcb21 he hv3
    have hrd : readAt img 72 32 = some ((img.drop 72).take 32) :=
      readAt_of_le (by omega)
    unfold hdrIncompatibleFeatures at h1 h2 h3 h4 h5
    unfold hdrHeaderLength hdrIncompatibleFeatures
    refine ⟨?_, ?_, ?_, ?_, ?_⟩
    · intro hl
      refine ⟨hpre _ ?_, rfl⟩
      unfold parseV3Block
      rw [hrd]
      dsimp only
      rw [if_neg (not_not.mpr h1), if_neg (not_not.mpr h2), if_neg (not_not.mpr h3),
        if_neg (not_not.mpr h4), if_neg (not_not.mpr h5), if_pos hl]
    · intro hl8 hl
      refine ⟨hpre _ ?_, rfl⟩
      unfold parseV3Block
      rw [hrd]
      dsimp only
      rw [if_neg (not_not.mpr h1), if_neg (not_not.mpr h2), if_neg (not_not.mpr h3),
        if_neg (not_not.mpr h4), if_neg (not_not.mpr h5), if_neg (not_not.mpr hl8),
        if_pos hl]
    · intro hl8 hlo hhi
      refine ⟨hpre _ ?_, rfl⟩
      unfold parseV3Block
      rw [hrd]
      dsimp only
      rw [if_neg (not_not.mpr h1), if_neg (not_not.mpr h2), if_neg (not_not.mpr h3),
        if_neg (not_not.mpr h4), if_neg (not_not.mpr h5), if_neg (not_not.mpr hl8),
        if_neg (show ¬beNat (field ((img.drop 72).take 32) 28 4) < 104 by omega),
        if_pos hhi]
    · intro hl8 hlo hhi hav hbit hshort
      refine hpre _ ?_
      unfold parseV3Block
      rw [hrd]
      dsimp only
      rw [if_neg (not_not.mpr h1), if_neg (not_not.mpr h2), if_neg (not_not.mpr h3),
        if_neg (not_not.mpr h4), if_neg (not_not.mpr h5), if_neg (not_not.mpr hl8),
        if_neg (show ¬beNat (field ((img.drop 72).take 32) 28 4) < 104 by omega),
        if_neg (show ¬beNat (field ((img.drop 72).take 32) 28 4) > 1000 by omega),
        readAt_of_le hav]
      dsimp only
      rw [if_pos (show (beNat (field ((img.drop 72).take 32) 0 8) &&&
          incFeatCompressionTypeBit != 0) = true by simpa [bne_iff_ne] using hbit)]
      rw [if_pos hshort]
    · intro hbit
      exact compField_eq_zero_of_unknown_clear (by omega) h5

/-- A 104-byte version-3 image with all feature bits clear and header
length 104: accepted. -/
def c8okImg : List Nat :=
  [81, 70, 73, 251] ++ [0, 0, 0, 3] ++ List.replicate 8 0 ++ List.replicate 4 0 ++
    [0, 0, 0, 9] ++ [0, 0, 0, 0, 0, 0, 2, 0] ++ [0, 0, 0, 0] ++ [0, 0, 0, 0] ++
    [0, 0, 0, 0, 0, 0, 0, 72] ++ List.replicate 24 0 ++
    (List.replicate 8 0 ++ List.replicate 8 0 ++ List.replicate 8 0 ++ [0, 0, 0, 0] ++
      [0, 0, 0, 104])

/-- The config the parser produces for c8okImg. -/
def c8okCfg : qcow2Config :=
  { clusterSize := 512, nClusters := 1, l1Table := [], l2TableSize := 64,
    l2CompressedEntryHostClusterOffsetMask := 2 ^ 61 - 1 }

/-- c8okImg with header length 105 instead: misaligned. -/
def c8misImg : List Nat :=
  [81, 70, 73, 251] ++ [0, 0, 0, 3] ++ List.replicate 8 0 ++ List.replicate 4 0 ++
    [0, 0, 0, 9] ++ [0, 0, 0, 0, 0, 0, 2, 0] ++ [0, 0, 0, 0] ++ [0, 0, 0, 0] ++
    [0, 0, 0, 0, 0, 0, 0, 72] ++ List.replicate 24 0 ++
    (List.replicate 8 0 ++ List.replicate 8 0 ++ List.replicate 8 0 ++ [0, 0, 0, 0] ++
      [0, 0, 0, 105])

set_option maxRecDepth 1000000 in
/-- Witness for v3_header_length_checks: the accepted image c8okImg
satisfies the success-direction length facts, and the misaligned image
c8misImg is rejected with headerLenMisaligned. -/
theorem v3_header_length_checks_witness :
    (hdrHeaderLength c8okImg % 8 = 0 ∧ 104 ≤ hdrHeaderLength c8okImg ∧
      hdrHeaderLength c8okImg ≤ 1000 ∧
      (hdrIncompatibleFeatures c8okImg &&& incFeatCompressionTypeBit ≠ 0 →
        108 ≤ hdrHeaderLength c8okImg ∧ hdrCompressionTypeField c8okImg = 0)) ∧
    (parseHeaderAndL1 c8misImg = .error .headerLenMisaligned ∧
      QErr.headerLenMisaligned.isFormatErr = true) :=
  ⟨(v3_header_length_checks c8okImg c8okCfg).1 (by decide) (by decide),
    (((v3_header_length_checks c8misImg c8okCfg).2 (by decide) (by decide) (by decide)
      (by decide) (by decide) (by decide) (by decide) (by decide) (by decide) (by decide)
      (by decide) (by decide)).1 (by decide))⟩

/-! C5: the resolver reads exactly entriesToRead * 8 bytes. -/

theorem getD_range_map_append {α : Type} (f : Nat → α) (n j : Nat) (rest : List α) (d : α)
    (hj : j < n) : (((List.range n).map f) ++ rest).getD j d = f j := by
  rw [List.getD_eq_getElem?_getD, List.getElem?_append_left (by simpa using hj),
    List.getElem?_map, List.getElem?_range hj]
  rfl

theorem getD_append_drop {α : Type} (xs ys : List α) (n j : Nat) (d : α)
    (hx : xs.length = n) (hj : n ≤ j) : (xs ++ ys.drop n).getD j d = ys.getD j d := by
  rw [List.getD_eq_getElem?_getD, List.getElem?_append_right (by omega), List.getElem?_drop,
    List.getD_eq_getElem?_getD, hx]
  congr 2
  omega

/-- C5: when l1Table[i] is nonzero and the cursor sits at the first
cluster of table i (currentCluster = i * l2TableSize, as at the only call
site), parseL2Table reads exactly n * 8 bytes at offset l1Table[i], where
n = min(l2TableSize, nClusters - currentCluster): it succeeds precisely
when those bytes are available — even when the image ends right after
them, as for a short final table — decodes exactly the first n table
slots from those bytes, leaves every slot from n on untouched, and its
outcome is unchanged under any change of the image outside
[l1Table[i], l1Table[i] + 8*n). -/
theorem parseL2Table_reads_exactly (r : qcow2Reader) (i off n : Nat)
    (hlen : i < r.l1Table.length) (hget : r.l1Table.getD i 0 = off) (hoff : off ≠ 0)
    (hcc : r.currentCluster = (i : Int) * (r.l2TableSize : Int))
    (hn : (n : Int) = min (r.l2TableSize : Int) (r.nClusters - (i : Int) * (r.l2TableSize : Int))) :
    ((parseL2Table r (i : Int)).2 = none ↔ 8 * n ≤ r.image.length - off) ∧
    ((parseL2Table r (i : Int)).2 = none →
      (∀ j, j < n →
        (parseL2Table r (i : Int)).1.currentL2Table.getD j
            { offset := 0, compressed := false, allZeroes := false } =
          decodeL2Entry r.l2CompressedEntryHostClusterOffsetMask
            (beNat (field ((r.image.drop off).take (8 * n)) (j * 8) 8))) ∧
      (∀ j, n ≤ j →
        (parseL2Table r (i : Int)).1.currentL2Table.getD j
            { offset := 0, compressed := false, allZeroes := false } =
          r.currentL2Table.getD j
            { offset := 0, compressed := false, allZeroes := false })) ∧
    (∀ img' : List Nat, 8 * n ≤ r.image.length - off →
      (img'.drop off).take (8 * n) = (r.image.drop off).take (8 * n) →
      parseL2Table { r with image := img' } (i : Int) =
        ({ (parseL2Table r (i : Int)).1 with image := img' }, none)) := by
  have hstep : ∀ im : List Nat, parseL2Table { r with image := im } (i : Int) =
      (match readAt im off (8 * n) with
       | none => ({ r with image := im }, some .ioError)
       | some buf =>
         ({ r with image := im, currentL2Table :=
             ((List.range n).map fun k =>
               decodeL2Entry r.l2CompressedEntryHostClusterOffsetMask
                 (beNat (field buf (k * 8) 8))) ++ r.currentL2Table.drop n }, none)) := by
    intro im
    unfold parseL2Table
    dsimp only
    rw [if_neg (show ¬((i : Int) < 0 ∨ (r.l1Table.length : Int) ≤ (i : Int)) by omega)]
    rw [show ((i : Int)).toNat = i by omega]
    rw [hget]
    rw [if_neg hoff]
    rw [hcc, ← hn]
    rw [if_neg (show ¬(n : Int) < 0 by omega)]
    rw [show ((n : Int)).toNat = n by omega]
  have hr_eta : { r with image := r.image } = r := rfl
  have hstep0 := hstep r.image
  rw [hr_eta] at hstep0
  refine ⟨?_, ?_, ?_⟩
  · rw [hstep0]
    constructor
    · intro hnone
      by_contra hnle
      rw [show readAt r.image off (8 * n) = none by
        unfold readAt
        rw [if_neg hnle]] at hnone
      simp at hnone
    · intro hle
      rw [readAt_of_le hle]
  · intro hnone
    rcases hread : readAt r.image off (8 * n) with _ | buf
    · rw [hstep0, hread] at hnone
      simp at hnone
    have hbuf : buf = (r.image.drop off).take (8 * n) := by
      unfold readAt at hread
      split at hread
      · injection hread with h1
        exact h1.symm
      · cases hread
    rw [hstep0, hread]
    subst hbuf
    constructor
    · intro j hj
      exact getD_range_map_append _ n j _ _ hj
    · intro j hj
      exact getD_append_drop _ _ n j _ (by simp) hj
  · intro img' hle hagree
    have hle' : 8 * n ≤ img'.length - off := by
      have h1 : ((r.image.drop off).take (8 * n)).length = 8 * n := by
        simp only [List.length_take, List.length_drop]
        omega
      have h2 : ((img'.drop off).take (8 * n)).length = 8 * n := by
        rw [hagree, h1]
      simp only [List.length_take, List.length_drop] at h2
      omega
    rw [hstep img', readAt_of_le hle', hagree, hstep0, readAt_of_le hle]

/-! C1 and C6: the decoding round trip.  An image is well formed for a
byte sequence when every cluster's descriptor chain resolves to the
corresponding slice of the sequence; reading the stream to completion
then reproduces the sequence exactly. -/

/-- Number of L2 entries the resolver reads for table i (the last table
may be short). -/
def entriesToRead (l2ts nCt i : Nat) : Nat := min l2ts (nCt - i * l2ts)

/-- Slice of the logical byte sequence belonging to cluster c. -/
def clusterOf (data : List Nat) (cs c : Nat) : List Nat := (data.drop (c * cs)).take cs

/-- The Go zero value of l2Entry (contents of freshly allocated slots). -/
def dfltE : l2Entry := { offset := 0, compressed := false, allZeroes := false }

/-- The all-zeroes entry the resolver synthesizes for absent L2 tables. -/
def zeroE : l2Entry := { offset := 0, compressed := false, allZeroes := true }

/-- The cluster materialiser's contract: entry e resolves to exactly the
byte sequence bytes (zero fill, verbatim read, or decompression). -/
def Materializes (inf : Inflator) (img : List Nat) (cs : Nat) (e : l2Entry)
    (bytes : List Nat) : Prop :=
  if e.allZeroes then bytes = List.replicate cs 0
  else if e.compressed then inf.run (img.drop e.offset) cs = some bytes
  else readAt img e.offset cs = some bytes

instance (inf : Inflator) (img : List Nat) (cs : Nat) (e : l2Entry) (bytes : List Nat) :
    Decidable (Materializes inf img cs e bytes) := by
  unfold Materializes
  split
  · infer_instance
  · split <;> infer_instance

/-- The bytes the resolver reads for L2 table i. -/
def tableBuf (r0 : qcow2Reader) (i : Nat) : List Nat :=
  (r0.image.drop (r0.l1Table.getD i 0)).take
    (8 * entriesToRead r0.l2TableSize r0.nClusters.toNat i)

/-- The entry the resolver produces for slot j of table i: synthesized
all-zeroes for an absent table, otherwise the decoded table bytes. -/
def refEntry (r0 : qcow2Reader) (i j : Nat) : l2Entry :=
  if r0.l1Table.getD i 0 = 0 then zeroE
  else decodeL2Entry r0.l2CompressedEntryHostClusterOffsetMask
    (beNat (field (tableBuf r0 i) (j * 8) 8))

/-- Well-formedness of a reader (as built by NewReader) for a logical
byte sequence data: sane sizes, data of the full virtual length, and for
every L2 table in range an absent table means all-zero clusters while a
present one has its bytes available with every entry materialising to the
matching cluster of data. -/
def WF (inf : Inflator) (r0 : qcow2Reader) (data : List Nat) : Prop :=
  0 < r0.clusterSize ∧ 0 < r0.l2TableSize ∧ 0 ≤ r0.nClusters ∧
  data.length = r0.nClusters.toNat * r0.clusterSize ∧
  ∀ i < (r0.nClusters.toNat + r0.l2TableSize - 1) / r0.l2TableSize,
    i < r0.l1Table.length ∧
    (r0.l1Table.getD i 0 = 0 →
      ∀ j < entriesToRead r0.l2TableSize r0.nClusters.toNat i,
        clusterOf data r0.clusterSize (i * r0.l2TableSize + j) =
          List.replicate r0.clusterSize 0) ∧
    (r0.l1Table.getD i 0 ≠ 0 →
      readAt r0.image (r0.l1Table.getD i 0)
          (8 * entriesToRead r0.l2TableSize r0.nClusters.toNat i) ≠ none ∧
      ∀ j < entriesToRead r0.l2TableSize r0.nClusters.toNat i,
        Materializes inf r0.image r0.clusterSize (refEntry r0 i j)
          (clusterOf data r0.clusterSize (i * r0.l2TableSize + j)))

instance (inf : Inflator) (r0 : qcow2Reader) (data : List Nat) : Decidable (WF inf r0 data) := by
  unfold WF
  infer_instance

theorem natCast_tmod (a b : Nat) : (a : Int).tmod (b : Int) = ((a % b : Nat) : Int) := by
  rw [Int.tmod_eq_emod (by positivity) (by positivity)]
  push_cast
  rfl

theorem natCast_tdiv (a b : Nat) : (a : Int).tdiv (b : Int) = ((a / b : Nat) : Int) := by
  rw [Int.tdiv_eq_ediv (by positivity) (by positivity)]
  push_cast
  rfl

theorem clusterOf_length {data : List Nat} {cs c nCt : Nat} (hlen : data.length = nCt * cs)
    (hc : c < nCt) : (clusterOf data cs c).length = cs := by
  unfold clusterOf
  simp only [List.length_take, List.length_drop, hlen]
  have h2 : (c + 1) * cs = c * cs + cs := by ring
  have h3 : (c + 1) * cs ≤ nCt * cs := Nat.mul_le_mul_right _ (by omega)
  omega

theorem getD_replicate {α : Type} (a d : α) {n j : Nat} (hj : j < n) :
    (List.replicate n a).getD j d = a := by
  rw [List.getD_eq_getElem?_getD, List.getElem?_replicate]
  simp [hj]

theorem succ_div_mod {k t : Nat} (ht : 0 < t) (h : (k + 1) % t ≠ 0) :
    (k + 1) / t = k / t ∧ (k + 1) % t = k % t + 1 := by
  have hdm := Nat.div_add_mod k t
  have hmlt : k % t < t := Nat.mod_lt _ ht
  by_cases hs : k % t + 1 = t
  · exfalso
    apply h
    have hexp : t * (k / t + 1) = t * (k / t) + t := by ring
    have hk1 : k + 1 = t * (k / t + 1) := by omega
    rw [hk1, Nat.mul_mod_right]
  · have hslt : k % t + 1 < t := by omega
    have hk1 : k + 1 = t * (k / t) + (k % t + 1) := by omega
    constructor
    · rw [hk1, Nat.mul_add_div ht, Nat.div_eq_of_lt hslt]
      omega
    · rw [hk1, Nat.mul_add_mod, Nat.mod_eq_of_lt hslt]

theorem lt_numTables {l2ts nCt i : Nat} (ht : 0 < l2ts) (h : i * l2ts < nCt) :
    i < (nCt + l2ts - 1) / l2ts := by
  have : i + 1 ≤ (nCt + l2ts - 1) / l2ts := by
    rw [Nat.le_div_iff_mul_le ht]
    have : (i + 1) * l2ts = i * l2ts + l2ts := by ring
    omega
  omega

theorem etr_cast {l2ts nCt i : Nat} (h : i * l2ts ≤ nCt) :
    ((entriesToRead l2ts nCt i : Nat) : Int) =
      min (l2ts : Int) ((nCt : Int) - ((i * l2ts : Nat) : Int)) := by
  unfold entriesToRead
  rw [Nat.cast_min, Nat.cast_sub h]

theorem parseL2Table_zero (r : qcow2Reader) (i : Nat)
    (hlen : i < r.l1Table.length) (hget : r.l1Table.getD i 0 = 0) :
    parseL2Table r (i : Int) =
      ({ r with currentL2Table := List.replicate r.l2TableSize zeroE ++
          r.currentL2Table.drop r.l2TableSize }, none) := by
  unfold parseL2Table
  dsimp only
  rw [if_neg (show ¬((i : Int) < 0 ∨ (r.l1Table.length : Int) ≤ (i : Int)) by omega)]
  rw [show ((i : Int)).toNat = i by omega]
  rw [hget]
  rw [if_pos rfl]
  rfl

theorem parseL2Table_compute (r : qcow2Reader) (i off n : Nat)
    (hlen : i < r.l1Table.length) (hget : r.l1Table.getD i 0 = off) (hoff : off ≠ 0)
    (hn : (n : Int) = min (r.l2TableSize : Int) (r.nClusters - r.currentCluster)) :
    parseL2Table r (i : Int) =
      (match readAt r.image off (8 * n) with
       | none => (r, some .ioError)
       | some buf =>
         ({ r with currentL2Table :=
             ((List.range n).map fun kk =>
               decodeL2Entry r.l2CompressedEntryHostClusterOffsetMask
                 (beNat (field buf (kk * 8) 8))) ++ r.currentL2Table.drop n }, none)) := by
  unfold parseL2Table
  dsimp only
  rw [if_neg (show ¬((i : Int) < 0 ∨ (r.l1Table.length : Int) ≤ (i : Int)) by omega)]
  rw [show ((i : Int)).toNat = i by omega]
  rw [hget]
  rw [if_neg hoff]
  rw [← hn]
  rw [if_neg (show ¬(n : Int) < 0 by omega)]
  rw [show ((n : Int)).toNat = n by omega]

/-- One successful cluster transition: from any reader state whose static
fields agree with r0, whose cursor sits just before cluster k < nClusters
in the exhausted position, and whose in-memory L2 table is valid for k's
table when k does not start a new one, fillNextCluster succeeds and
produces cluster k's bytes with a valid table and reset offset. -/
theorem fill_step (inf : Inflator) (data : List Nat) (r0 : qcow2Reader)
    (hwf : WF inf r0 data) (k : Nat) (r : qcow2Reader)
    (him : r.image = r0.image) (hcs : r.clusterSize = r0.clusterSize)
    (hnc : r.nClusters = r0.nClusters) (hl1 : r.l1Table = r0.l1Table)
    (hl2 : r.l2TableSize = r0.l2TableSize)
    (hmask : r.l2CompressedEntryHostClusterOffsetMask =
      r0.l2CompressedEntryHostClusterOffsetMask)
    (hk : k < r0.nClusters.toNat) (hcc : r.currentCluster = (k : Int) - 1)
    (hdlen : r.currentData.length = r.clusterSize)
    (htlen : r.currentL2Table.length = r.l2TableSize)
    (htbl : k % r0.l2TableSize ≠ 0 →
      ∀ j < entriesToRead r0.l2TableSize r0.nClusters.toNat (k / r0.l2TableSize),
        r.currentL2Table.getD j dfltE = refEntry r0 (k / r0.l2TableSize) j) :
    ∃ r' : qcow2Reader, fillNextCluster inf r = (r', none) ∧
      r'.image = r0.image ∧ r'.clusterSize = r0.clusterSize ∧
      r'.nClusters = r0.nClusters ∧ r'.l1Table = r0.l1Table ∧
      r'.l2TableSize = r0.l2TableSize ∧
      r'.l2CompressedEntryHostClusterOffsetMask =
        r0.l2CompressedEntryHostClusterOffsetMask ∧
      r'.currentCluster = (k : Int) ∧ r'.currentOffset = 0 ∧
      r'.currentData = clusterOf data r0.clusterSize k ∧
      r'.currentL2Table.length = r0.l2TableSize ∧
      (∀ j < entriesToRead r0.l2TableSize r0.nClusters.toNat (k / r0.l2TableSize),
        r'.currentL2Table.getD j dfltE = refEntry r0 (k / r0.l2TableSize) j) := by
  obtain ⟨hcs0, hl20, hnc0, hdata, hiAll⟩ := hwf
  have hdm : r0.l2TableSize * (k / r0.l2TableSize) + k % r0.l2TableSize = k :=
    Nat.div_add_mod k r0.l2TableSize
  have hdm' : k / r0.l2TableSize * r0.l2TableSize + k % r0.l2TableSize = k := by
    rw [Nat.mul_comm] at hdm
    exact hdm
  have hj0lt : k % r0.l2TableSize < r0.l2TableSize := Nat.mod_lt _ hl20
  have hiN : k / r0.l2TableSize <
      (r0.nClusters.toNat + r0.l2TableSize - 1) / r0.l2TableSize :=
    lt_numTables hl20 (by omega)
  obtain ⟨hil1, hzeroC, hnzC⟩ := hiAll _ hiN
  have hj0etr : k % r0.l2TableSize <
      entriesToRead r0.l2TableSize r0.nClusters.toNat (k / r0.l2TableSize) := by
    unfold entriesToRead
    omega
  have hetr_le : entriesToRead r0.l2TableSize r0.nClusters.toNat (k / r0.l2TableSize) ≤
      r0.l2TableSize := Nat.min_le_left _ _
  have hcc1 : r.currentCluster + 1 = (k : Int) := by omega
  have hknc' : ¬(r.currentCluster + 1 = r.nClusters) := by omega
  -- Stage 1: the L2 table after the (possible) reload
  have hstage1 : ∃ rt : qcow2Reader,
      (if (r.currentCluster + 1).tmod ((r.l2TableSize : Int)) = 0 then
        parseL2Table { r with currentCluster := r.currentCluster + 1 }
          ((r.currentCluster + 1).tdiv ((r.l2TableSize : Int)))
      else ({ r with currentCluster := r.currentCluster + 1 }, none)) = (rt, none) ∧
      rt.image = r0.image ∧ rt.clusterSize = r0.clusterSize ∧
      rt.nClusters = r0.nClusters ∧ rt.l1Table = r0.l1Table ∧
      rt.l2TableSize = r0.l2TableSize ∧
      rt.l2CompressedEntryHostClusterOffsetMask =
        r0.l2CompressedEntryHostClusterOffsetMask ∧
      rt.currentCluster = (k : Int) ∧ rt.currentOffset = r.currentOffset ∧
      rt.currentData = r.currentData ∧
      rt.currentL2Table.length = r0.l2TableSize ∧
      (∀ j < entriesToRead r0.l2TableSize r0.nClusters.toNat (k / r0.l2TableSize),
        rt.currentL2Table.getD j dfltE = refEntry r0 (k / r0.l2TableSize) j) := by
    by_cases hb : k % r0.l2TableSize = 0
    · have htmod0 : (r.currentCluster + 1).tmod ((r.l2TableSize : Int)) = 0 := by
        rw [hcc1, hl2, natCast_tmod, hb]
        simp
      rw [if_pos htmod0]
      have htdiv : (r.currentCluster + 1).tdiv ((r.l2TableSize : Int)) =
          ((k / r0.l2TableSize : Nat) : Int) := by
        rw [hcc1, hl2, natCast_tdiv]
      rw [htdiv, hcc1]
      have hil1r : k / r0.l2TableSize < r.l1Table.length := by
        rw [hl1]
        exact hil1
      by_cases hz : r0.l1Table.getD (k / r0.l2TableSize) 0 = 0
      · have hzr : r.l1Table.getD (k / r0.l2TableSize) 0 = 0 := by
          rw [hl1]
          exact hz
        refine ⟨{ r with
            currentCluster := (k : Int),
            currentL2Table := List.replicate r.l2TableSize zeroE ++ r.currentL2Table.drop r.l2TableSize },
          ?_, him, hcs, hnc, hl1, hl2, hmask, rfl, rfl, rfl, ?_, ?_⟩
        · rw [parseL2Table_zero { r with currentCluster := (k : Int) }
            (k / r0.l2TableSize) hil1r hzr]
        · dsimp only
          simp only [List.length_append, List.length_replicate, List.length_drop]
          omega
        · intro j hj
          dsimp only
          have hjlt : j < r0.l2TableSize := by omega
          rw [List.getD_eq_getElem?_getD,
            List.getElem?_append_left (by simp only [List.length_replicate]; rw [hl2]; exact hjlt),
            List.getElem?_replicate, if_pos (by rw [hl2]; exact hjlt)]
          unfold refEntry
          rw [if_pos hz]
          rfl
      · have hzr : r.l1Table.getD (k / r0.l2TableSize) 0 =
            r0.l1Table.getD (k / r0.l2TableSize) 0 := by
          rw [hl1]
        have hn : ((entriesToRead r0.l2TableSize r0.nClusters.toNat (k / r0.l2TableSize) :
            Nat) : Int) = min ((r.l2TableSize : Int)) (r.nClusters - (k : Int)) := by
          unfold entriesToRead
          rw [hl2, hnc]
          omega
        obtain ⟨hreadne, hmats⟩ := hnzC hz
        have hread : readAt r0.image (r0.l1Table.getD (k / r0.l2TableSize) 0)
            (8 * entriesToRead r0.l2TableSize r0.nClusters.toNat (k / r0.l2TableSize)) =
            some (tableBuf r0 (k / r0.l2TableSize)) := by
          unfold readAt at hreadne ⊢
          split at hreadne
          next hle =>
            rw [if_pos hle]
            rfl
          next => exact absurd rfl hreadne
        refine ⟨{ r with
            currentCluster := (k : Int),
            currentL2Table := ((List.range (entriesToRead r0.l2TableSize r0.nClusters.toNat (k / r0.l2TableSize))).map fun kk => decodeL2Entry r.l2CompressedEntryHostClusterOffsetMask (beNat (field (tableBuf r0 (k / r0.l2TableSize)) (kk * 8) 8))) ++ r.currentL2Table.drop (entriesToRead r0.l2TableSize r0.nClusters.toNat (k / r0.l2TableSize)) },
          ?_, him, hcs, hnc, hl1, hl2, hmask, rfl, rfl, rfl, ?_, ?_⟩
        · rw [parseL2Table_compute { r with currentCluster := (k : Int) }
            (k / r0.l2TableSize) (r0.l1Table.getD (k / r0.l2TableSize) 0)
            (entriesToRead r0.l2TableSize r0.nClusters.toNat (k / r0.l2TableSize))
            hil1r hzr hz hn]
          dsimp only
          rw [him, hread]
        · dsimp only
          simp only [List.length_append, List.length_map, List.length_range, List.length_drop]
          omega
        · intro j hj
          dsimp only
          rw [getD_range_map_append _ _ _ _ _ hj]
          unfold refEntry
          rw [if_neg hz, hmask]
    · have htmodne : ¬((r.currentCluster + 1).tmod ((r.l2TableSize : Int)) = 0) := by
        rw [hcc1, hl2, natCast_tmod]
        omega
      rw [if_neg htmodne]
      refine ⟨{ r with currentCluster := r.currentCluster + 1 },
        rfl, him, hcs, hnc, hl1, hl2, hmask, hcc1, rfl, rfl, ?_, ?_⟩
      · dsimp only
        rw [htlen, hl2]
      · intro j hj
        dsimp only
        exact htbl hb j hj
  obtain ⟨rt, hpt, him2, hcs2, hnc2, hl12, hl22, hmask2, hccr, hoffr, hdatar, htlenr, htblr⟩ :=
    hstage1
  -- Stage 2: materialise cluster k from its entry
  have hguard : ¬(rt.currentCluster.tmod ((rt.l2TableSize : Int)) < 0 ∨
      (rt.currentL2Table.length : Int) ≤ rt.currentCluster.tmod ((rt.l2TableSize : Int))) := by
    rw [hccr, hl22, htlenr, natCast_tmod]
    omega
  have hidxNat : (rt.currentCluster.tmod ((rt.l2TableSize : Int))).toNat =
      k % r0.l2TableSize := by
    rw [hccr, hl22, natCast_tmod]
    omega
  have hentry : rt.currentL2Table.getD (k % r0.l2TableSize)
      { offset := 0, compressed := false, allZeroes := false } =
      refEntry r0 (k / r0.l2TableSize) (k % r0.l2TableSize) := by
    have h := htblr _ hj0etr
    simpa [dfltE] using h
  have hdlen2 : rt.currentData.length = r0.clusterSize := by
    rw [hdatar, hdlen, hcs]
  have hmat : Materializes inf r0.image r0.clusterSize
      (refEntry r0 (k / r0.l2TableSize) (k % r0.l2TableSize))
      (clusterOf data r0.clusterSize k) := by
    by_cases hz : r0.l1Table.getD (k / r0.l2TableSize) 0 = 0
    · have hcl := hzeroC hz _ hj0etr
      rw [hdm'] at hcl
      unfold Materializes refEntry
      rw [if_pos hz]
      simpa [zeroE] using hcl
    · have h := (hnzC hz).2 _ hj0etr
      rw [hdm'] at h
      exact h
  have hfill0 : fillNextCluster inf r =
      (if (refEntry r0 (k / r0.l2TableSize) (k % r0.l2TableSize)).allZeroes = true then
        ({ rt with
            currentData := List.replicate rt.clusterSize 0 ++ rt.currentData.drop rt.clusterSize,
            currentOffset := 0 }, none)
      else if (refEntry r0 (k / r0.l2TableSize) (k % r0.l2TableSize)).compressed = true then
        (match inf.run (rt.image.drop (refEntry r0 (k / r0.l2TableSize)
            (k % r0.l2TableSize)).offset) rt.currentData.length with
         | none => (rt, some .ioError)
         | some bs => ({ rt with currentData := bs, currentOffset := 0 }, none))
      else
        (match readAt rt.image (refEntry r0 (k / r0.l2TableSize)
            (k % r0.l2TableSize)).offset rt.currentData.length with
         | none => (rt, some .ioError)
         | some bs => ({ rt with currentData := bs, currentOffset := 0 }, none))) := by
    unfold fillNextCluster
    dsimp only
    rw [if_neg hknc']
    rw [hpt]
    dsimp only
    rw [if_neg hguard]
    rw [hidxNat]
    rw [hentry]
  by_cases hez : (refEntry r0 (k / r0.l2TableSize) (k % r0.l2TableSize)).allZeroes = true
  · have hcl : clusterOf data r0.clusterSize k = List.replicate r0.clusterSize 0 := by
      unfold Materializes at hmat
      rw [if_pos hez] at hmat
      exact hmat
    refine ⟨{ rt with
        currentData := List.replicate rt.clusterSize 0 ++ rt.currentData.drop rt.clusterSize,
        currentOffset := 0 },
      by rw [hfill0, if_pos hez], him2, hcs2, hnc2, hl12, hl22, hmask2, hccr, rfl,
      ?_, htlenr, htblr⟩
    dsimp only
    rw [hcl, hcs2]
    have hdrop : rt.currentData.drop r0.clusterSize = [] := by
      apply List.drop_eq_nil_of_le
      omega
    rw [hdrop, List.append_nil]
  · rw [Bool.not_eq_true] at hez
    by_cases hec : (refEntry r0 (k / r0.l2TableSize) (k % r0.l2TableSize)).compressed = true
    · have hrun : inf.run
          (r0.image.drop (refEntry r0 (k / r0.l2TableSize) (k % r0.l2TableSize)).offset)
          r0.clusterSize = some (clusterOf data r0.clusterSize k) := by
        unfold Materializes at hmat
        rw [if_neg (by rw [hez]; simp), if_pos hec] at hmat
        exact hmat
      refine ⟨{ rt with currentData := clusterOf data r0.clusterSize k, currentOffset := 0 },
        ?_, him2, hcs2, hnc2, hl12, hl22, hmask2, hccr, rfl, rfl, htlenr, htblr⟩
      rw [hfill0, if_neg (by rw [hez]; simp), if_pos hec, him2, hdlen2, hrun]
    · have hraw : readAt r0.image
          (refEntry r0 (k / r0.l2TableSize) (k % r0.l2TableSize)).offset
          r0.clusterSize = some (clusterOf data r0.clusterSize k) := by
        unfold Materializes at hmat
        rw [if_neg (by rw [hez]; simp), if_neg hec] at hmat
        exact hmat
      refine ⟨{ rt with currentData := clusterOf data r0.clusterSize k, currentOffset := 0 },
        ?_, him2, hcs2, hnc2, hl12, hl22, hmask2, hccr, rfl, rfl, htlenr, htblr⟩
      rw [hfill0, if_neg (by rw [hez]; simp), if_neg hec, him2, hdlen2, hraw]

/-- Driving the reader with clusterSize-byte reads: from any state about
to enter cluster k with a valid table, the remaining reads produce
exactly the tail of data from cluster k on, ending in a clean eof. -/
theorem readAll_loop (inf : Inflator) (data : List Nat) (r0 : qcow2Reader)
    (hwf : WF inf r0 data) :
    ∀ (m k : Nat) (r : qcow2Reader),
      r.image = r0.image → r.clusterSize = r0.clusterSize → r.nClusters = r0.nClusters →
      r.l1Table = r0.l1Table → r.l2TableSize = r0.l2TableSize →
      r.l2CompressedEntryHostClusterOffsetMask =
        r0.l2CompressedEntryHostClusterOffsetMask →
      k + m = r0.nClusters.toNat →
      r.currentCluster = (k : Int) - 1 →
      r.clusterSize ≤ r.currentOffset →
      r.currentData.length = r.clusterSize →
      r.currentL2Table.length = r.l2TableSize →
      (k % r0.l2TableSize ≠ 0 →
        ∀ j < entriesToRead r0.l2TableSize r0.nClusters.toNat (k / r0.l2TableSize),
          r.currentL2Table.getD j dfltE = refEntry r0 (k / r0.l2TableSize) j) →
      readAll inf r0.clusterSize (m + 1) r = .ok (data.drop (k * r0.clusterSize)) := by
  have hwfc := hwf
  obtain ⟨hcs0, hl20, hnc0, hdata, -⟩ := hwfc
  intro m
  induction m with
  | zero =>
    intro k r him hcs hnc hl1 hl2 hmask hkm hcc hoff hdlen htlen htbl
    have hccnc : r.currentCluster + 1 = r.nClusters := by omega
    have hf : fillNextCluster inf r =
        ({ r with currentCluster := r.currentCluster + 1 }, some .eof) := by
      unfold fillNextCluster
      dsimp only
      rw [if_pos hccnc]
    have hread : r.Read inf r0.clusterSize =
        ({ r with currentCluster := r.currentCluster + 1 }, .error .eof) := by
      unfold qcow2Reader.Read
      rw [if_pos hoff, hf]
    have hkN : k = r0.nClusters.toNat := by omega
    have hdrop : data.drop (k * r0.clusterSize) = [] := by
      apply List.drop_eq_nil_of_le
      rw [hdata, hkN]
    unfold readAll
    rw [hread, hdrop]
  | succ m ih =>
    intro k r him hcs hnc hl1 hl2 hmask hkm hcc hoff hdlen htlen htbl
    have hk : k < r0.nClusters.toNat := by omega
    obtain ⟨r', hfill, him', hcs', hnc', hl1', hl2', hmask', hcc', hoff', hdat', htlen', htbl'⟩ :=
      fill_step inf data r0 hwf k r him hcs hnc hl1 hl2 hmask hk hcc hdlen htlen htbl
    have hcl_len : (clusterOf data r0.clusterSize k).length = r0.clusterSize :=
      clusterOf_length hdata hk
    have htake : (clusterOf data r0.clusterSize k).take r0.clusterSize =
        clusterOf data r0.clusterSize k :=
      List.take_of_length_le hcl_len.le
    have hread : r.Read inf r0.clusterSize =
        ({ r' with currentOffset := r0.clusterSize }, .ok (clusterOf data r0.clusterSize k)) := by
      unfold qcow2Reader.Read
      rw [if_pos hoff, hfill]
      dsimp only
      rw [hoff', hcs', hdat']
      simp only [Nat.sub_zero, List.drop_zero, Nat.min_self, Nat.zero_add]
      rw [htake]
    have hccsucc : ({ r' with currentOffset := r0.clusterSize } :
        qcow2Reader).currentCluster = ((k + 1 : Nat) : Int) - 1 := by
      dsimp only
      rw [hcc']
      push_cast
      ring
    have htblsucc : (k + 1) % r0.l2TableSize ≠ 0 →
        ∀ j < entriesToRead r0.l2TableSize r0.nClusters.toNat ((k + 1) / r0.l2TableSize),
          ({ r' with currentOffset := r0.clusterSize } :
            qcow2Reader).currentL2Table.getD j dfltE =
            refEntry r0 ((k + 1) / r0.l2TableSize) j := by
      intro hne j hj
      obtain ⟨hdiv, -⟩ := succ_div_mod hl20 hne
      rw [hdiv] at hj ⊢
      exact htbl' j hj
    have hih := ih (k + 1) { r' with currentOffset := r0.clusterSize }
      him' hcs' hnc' hl1' hl2' hmask' (by omega) hccsucc
      (by dsimp only; rw [hcs']) (by dsimp only; rw [hdat', hcl_len, hcs'])
      (by dsimp only; rw [htlen', hl2']) htblsucc
    have happ : clusterOf data r0.clusterSize k ++ data.drop ((k + 1) * r0.clusterSize) =
        data.drop (k * r0.clusterSize) := by
      unfold clusterOf
      have h1 : (k + 1) * r0.clusterSize = k * r0.clusterSize + r0.clusterSize := by ring
      rw [h1, ← List.drop_drop]
      exact List.take_append_drop _ _
    unfold readAll
    rw [hread]
    dsimp only
    rw [hih]
    dsimp only
    rw [happ]

/-- C1: the round trip.  For every image accepted by NewReader and every
byte sequence for which the image is well formed — each cluster resolving
through the L1/L2 indirection to an all-zero, raw, or deflate-compressed
encoding of the matching slice — driving the stream to completion with
cluster-sized reads yields exactly that byte sequence, of length
nClusters * clusterSize.  The statement is for arbitrary cluster counts,
so it covers images spanning more than one L2 table, where the reader
must reload its in-memory table. -/
theorem round_trip (inf : Inflator) (img data : List Nat) (r0 : qcow2Reader)
    (h0 : NewReader img = .ok r0) (hwf : WF inf r0 data) :
    readAll inf r0.clusterSize (r0.nClusters.toNat + 1) r0 = .ok data ∧
    data.length = r0.nClusters.toNat * r0.clusterSize := by
  have hwfc := hwf
  obtain ⟨hcs0, hl20, hnc0, hdata, -⟩ := hwfc
  refine ⟨?_, hdata⟩
  unfold NewReader at h0
  split at h0
  · cases h0
  next cfg heq =>
    injection h0 with h0'
    subst h0'
    have hloop := readAll_loop inf data _ hwf (initReader cfg img).nClusters.toNat 0
      (initReader cfg img) rfl rfl rfl rfl rfl rfl (by omega)
      (by simp [initReader]) (by simp [initReader]) (by simp [initReader])
      (by simp [initReader]) (fun hne => absurd (Nat.zero_mod _) hne)
    rw [Nat.zero_mul, List.drop_zero] at hloop
    exact hloop

/-- Witness image for the round trip: a 1024-byte image holding three
512-byte clusters — raw, all-zero, and compressed.  Regions overlap to
keep the image small, which the format allows: the L1 table is at 72,
the L2 table at 512, the raw cluster also at 512 (it reads the table
bytes and the padding after them), and the compressed cluster's stream
starts at byte 24, inside the header. -/
def mixL2Bytes : List Nat :=
  [0, 0, 0, 0, 0, 0, 2, 0] ++ [0, 0, 0, 0, 0, 0, 0, 1] ++ [64, 0, 0, 0, 0, 0, 0, 24]

def mixImg : List Nat :=
  [81, 70, 73, 251] ++ [0, 0, 0, 2] ++ List.replicate 8 0 ++ List.replicate 4 0 ++
    [0, 0, 0, 9] ++ [0, 0, 0, 0, 0, 0, 6, 0] ++ [0, 0, 0, 0] ++ [0, 0, 0, 1] ++
    [0, 0, 0, 0, 0, 0, 0, 72] ++ List.replicate 24 0 ++
    [0, 0, 0, 0, 0, 0, 2, 0] ++ List.replicate 432 0 ++
    mixL2Bytes ++ List.replicate 488 0

/-- The config the parser produces for mixImg. -/
def mixCfg : qcow2Config :=
  { clusterSize := 512, nClusters := 3, l1Table := [512], l2TableSize := 64,
    l2CompressedEntryHostClusterOffsetMask := 2 ^ 61 - 1 }

/-- The reader NewReader produces for mixImg. -/
def mixReader : qcow2Reader := initReader mixCfg mixImg

/-- The logical byte sequence mixImg encodes: cluster 0 is the raw bytes
at 512 (the L2 table bytes and the padding after them), cluster 1 is all
zeroes, cluster 2 is the identity-inflated bytes from offset 24 (header
tail, L1 table, padding and L2 table). -/
def mixData : List Nat :=
  (mixL2Bytes ++ List.replicate 488 0) ++ List.replicate 512 0 ++
    ([0, 0, 0, 0, 0, 0, 6, 0] ++ [0, 0, 0, 0] ++ [0, 0, 0, 1] ++
      [0, 0, 0, 0, 0, 0, 0, 72] ++ List.replicate 24 0 ++
      [0, 0, 0, 0, 0, 0, 2, 0] ++ List.replicate 432 0 ++ mixL2Bytes)

set_option maxRecDepth 1000000 in
/-- Witness for round_trip: mixImg decodes to mixData (raw, zero and
compressed clusters, the compressed one through the concrete identity
inflator). -/
theorem round_trip_witness :
    NewReader mixImg = .ok mixReader ∧
    (readAll idInflator mixReader.clusterSize (mixReader.nClusters.toNat + 1) mixReader =
        .ok mixData ∧
      mixData.length = mixReader.nClusters.toNat * mixReader.clusterSize) :=
  ⟨by decide, round_trip idInflator mixImg mixData mixReader (by decide) (by decide)⟩

/-- The reader mixReader advanced to cluster 0, the state parseL2Table is
called in. -/
def mixAt0 : qcow2Reader := { mixReader with currentCluster := 0 }

set_option maxRecDepth 1000000 in
/-- Witness for parseL2Table_reads_exactly at the concrete image mixImg:
the resolver succeeds exactly when the 24 = 8*3 entry bytes at offset 512
are available, slot 2 is decoded from them, slot 5 is untouched. -/
theorem parseL2Table_reads_exactly_witness :
    mixAt0.l1Table.getD 0 0 = 512 ∧
    ((parseL2Table mixAt0 ((0 : Nat) : Int)).2 = none ↔ 8 * 3 ≤ mixAt0.image.length - 512) ∧
    (parseL2Table mixAt0 ((0 : Nat) : Int)).1.currentL2Table.getD 2
        { offset := 0, compressed := false, allZeroes := false } =
      decodeL2Entry mixAt0.l2CompressedEntryHostClusterOffsetMask
        (beNat (field ((mixAt0.image.drop 512).take (8 * 3)) (2 * 8) 8)) ∧
    (parseL2Table mixAt0 ((0 : Nat) : Int)).1.currentL2Table.getD 70
        { offset := 0, compressed := false, allZeroes := false } =
      mixAt0.currentL2Table.getD 70 { offset := 0, compressed := false, allZeroes := false } :=
  ⟨by decide,
    (parseL2Table_reads_exactly mixAt0 0 512 3 (by decide) (by decide) (by decide) (by decide)
      (by decide)).1,
    ((parseL2Table_reads_exactly mixAt0 0 512 3 (by decide) (by decide) (by decide) (by decide)
      (by decide)).2.1 (by decide)).1 2 (by decide),
    ((parseL2Table_reads_exactly mixAt0 0 512 3 (by decide) (by decide) (by decide) (by decide)
      (by decide)).2.1 (by decide)).2 70 (by decide)⟩

theorem clusterOf_replicate_zero {v cs nCt c : Nat} (hv : v = nCt * cs) (hc : c < nCt) :
    clusterOf (List.replicate v 0) cs c = List.replicate cs 0 := by
  unfold clusterOf
  rw [List.drop_replicate, List.take_replicate]
  congr 1
  have h1 : (c + 1) * cs = c * cs + cs := by ring
  have h2 : (c + 1) * cs ≤ nCt * cs := Nat.mul_le_mul_right _ (by omega)
  omega

/-- C6: a zero L1 entry makes the resolver synthesize an L2 table of
l2TableSize all-zeroes entries without touching the byte source (the
first part holds for every reader over every image), so an accepted
image whose L1 entries are all zero decodes — for every byte-source
content whatsoever, hence with no read from any cluster-data region — to
exactly the declared virtual size of bytes, every byte zero. -/
theorem all_zero_l1 (inf : Inflator) (img img' : List Nat) (cfg : qcow2Config)
    (h : parseHeaderAndL1 img = .ok cfg)
    (hz : ∀ x ∈ cfg.l1Table, x = 0)
    (hcov : cfg.nClusters.toNat ≤ cfg.l1Table.length * cfg.l2TableSize)
    (hv : hdrVirtualSize img < 2 ^ 63)
    (hdvd : cfg.clusterSize ∣ hdrVirtualSize img) :
    (∀ (r : qcow2Reader) (i : Nat), r.l1Table = cfg.l1Table → i < cfg.l1Table.length →
      parseL2Table r ((i : Nat) : Int) =
        ({ r with currentL2Table := List.replicate r.l2TableSize zeroE ++
            r.currentL2Table.drop r.l2TableSize }, none)) ∧
    readAll inf cfg.clusterSize (cfg.nClusters.toNat + 1) (initReader cfg img') =
      .ok (List.replicate (hdrVirtualSize img) 0) := by
  obtain ⟨-, -, -, -, hcb9, hcb21, -, hcs, hn, hl2ts, -⟩ := parseHeaderAndL1_ok_fields h
  have hgetz : ∀ i, i < cfg.l1Table.length → cfg.l1Table.getD i 0 = 0 := by
    intro i hi
    rw [List.getD_eq_getElem?_getD]
    rcases hg : cfg.l1Table[i]? with _ | x
    · rfl
    · have hix : cfg.l1Table[i] = x := by
        rw [List.getElem?_eq_getElem hi] at hg
        exact Option.some.inj hg
      have hxmem : x ∈ cfg.l1Table := List.mem_iff_getElem.mpr ⟨i, hi, hix⟩
      rw [hz x hxmem]
      rfl
  have hcs0 : 0 < cfg.clusterSize := by
    rw [hcs, Nat.shiftLeft_eq, one_mul]
    positivity
  have hl20 : 0 < cfg.l2TableSize := by
    rw [hl2ts, Nat.shiftLeft_eq, one_mul]
    apply Nat.div_pos
    · calc (8 : Nat) ≤ 2 ^ 9 := by norm_num
        _ ≤ 2 ^ hdrClusterBits img := Nat.pow_le_pow_right (by norm_num) hcb9
    · norm_num
  have hnc' : cfg.nClusters = ((hdrVirtualSize img / cfg.clusterSize : Nat) : Int) := by
    rw [hn]
    unfold toInt64
    rw [if_pos hv, ← hcs, natCast_tdiv]
  have hnCt : cfg.nClusters.toNat = hdrVirtualSize img / cfg.clusterSize := by
    rw [hnc']
    exact Int.toNat_ofNat _
  have hvlen : hdrVirtualSize img = cfg.nClusters.toNat * cfg.clusterSize := by
    rw [hnCt]
    exact (Nat.div_mul_cancel hdvd).symm
  have hwf : WF inf (initReader cfg img') (List.replicate (hdrVirtualSize img) 0) := by
    refine ⟨hcs0, hl20, ?_, ?_, ?_⟩
    · show (0 : Int) ≤ cfg.nClusters
      rw [hnc']
      positivity
    · show (List.replicate (hdrVirtualSize img) 0).length =
        cfg.nClusters.toNat * cfg.clusterSize
      rw [List.length_replicate, hvlen]
    · intro i hiN
      have hiN' : i < (cfg.nClusters.toNat + cfg.l2TableSize - 1) / cfg.l2TableSize := hiN
      have hi1 : (i + 1) * cfg.l2TableSize ≤ cfg.nClusters.toNat + cfg.l2TableSize - 1 :=
        (Nat.le_div_iff_mul_le hl20).mp (by omega)
      have hexp : (i + 1) * cfg.l2TableSize = i * cfg.l2TableSize + cfg.l2TableSize := by
        ring
      have hilt : i * cfg.l2TableSize < cfg.nClusters.toNat := by omega
      have hil1 : i < cfg.l1Table.length := by
        by_contra hle
        have : cfg.l1Table.length * cfg.l2TableSize ≤ i * cfg.l2TableSize :=
          Nat.mul_le_mul_right _ (by omega)
        omega
      refine ⟨hil1, ?_, ?_⟩
      · intro hzi j hj
        have hj' : j < entriesToRead cfg.l2TableSize cfg.nClusters.toNat i := hj
        show clusterOf (List.replicate (hdrVirtualSize img) 0)
          cfg.clusterSize (i * cfg.l2TableSize + j) =
          List.replicate cfg.clusterSize 0
        apply clusterOf_replicate_zero hvlen
        unfold entriesToRead at hj'
        omega
      · intro hzi
        exact absurd (hgetz i hil1) hzi
  constructor
  · intro r i hrl1 hi
    exact parseL2Table_zero r i (by rw [hrl1]; exact hi) (by rw [hrl1]; exact hgetz i hi)
  · have hloop := readAll_loop inf (List.replicate (hdrVirtualSize img) 0) _ hwf
      (initReader cfg img').nClusters.toNat 0 (initReader cfg img')
      rfl rfl rfl rfl rfl rfl (by omega)
      (by simp [initReader]) (by simp [initReader]) (by simp [initReader])
      (by simp [initReader]) (fun hne => absurd (Nat.zero_mod _) hne)
    rw [Nat.zero_mul, List.drop_zero] at hloop
    exact hloop

set_option maxRecDepth 1000000 in
/-- Witness for all_zero_l1: zImg has the single L1 entry 0; over the
empty byte source (no cluster data available at all) the stream still
decodes to 512 zero bytes, and the resolver synthesizes the all-zero
table. -/
theorem all_zero_l1_witness :
    parseL2Table (initReader zCfg []) ((0 : Nat) : Int) =
      ({ initReader zCfg [] with
          currentL2Table := List.replicate (initReader zCfg []).l2TableSize zeroE ++
            (initReader zCfg []).currentL2Table.drop (initReader zCfg []).l2TableSize },
        none) ∧
    readAll idInflator zCfg.clusterSize (zCfg.nClusters.toNat + 1) (initReader zCfg []) =
      .ok (List.replicate (hdrVirtualSize zImg) 0) :=
  ⟨(all_zero_l1 idInflator zImg [] zCfg (by decide) (by decide) (by decide) (by decide)
      (by decide)).1 (initReader zCfg []) 0 rfl (by decide),
    (all_zero_l1 idInflator zImg [] zCfg (by decide) (by decide) (by decide) (by decide)
      (by decide)).2⟩

end Qcow2
